/-
Formal model of the html-nesting-linter core: `nestingRules.ts` (explicit
rule catalog, generated rules, RULES_MAP) and `parser.ts` (markup-region
extraction, tag tokenizer, stack-based nesting checker), translated from
the repository source.

Modelling conventions:
- JS strings are Lean `String` (a structure over `List Char`); offsets and
  lengths count characters (the analysed inputs are ASCII, where JS UTF-16
  indices coincide with character counts).
- A JS `Map` is modelled by its insertion list of (key, value) pairs;
  `mapGet` returns the value of the LAST `set` for a key, which is exactly
  the observable behaviour of `Map.set` overwrite followed by `Map.get`.
- A JS `Set` of strings is modelled as a `List String` with `contains`.
- The regex-driven `exec` loops of the source advance strictly through the
  text; they are modelled as fuel-indexed loops (`none` = fuel exhausted).
  The plain functions instantiate the fuel with `input length + 1`, and the
  termination theorem proves that this fuel always suffices.
- The regex /<\/?([a-zA-Z][a-zA-Z0-9-]*)\s*(?:[^>]*)?(\/?)>/ is modelled by
  `matchTagAt`: the greedy `[^>]*` always extends to the first '>' after
  the tag name, so the optional capture `(\/?)` is always empty and
  `selfClose` is decided by `full.endsWith("/>")`, i.e. by the character
  right before the closing '>'.
- The JS stack array (top at the end) is modelled as a list with the top
  at the head; `stack.splice(i)` inside the close-tag loop becomes
  `popToMatch` (drop the topmost matching frame and everything above it).
-/
import Mathlib

namespace HtmlNesting

/-- Reference link of a rule: `{ label, url }` in `nestingRules.ts`. -/
structure Reference where
  label : String
  url : String
deriving DecidableEq

/-- NestingRule record from `nestingRules.ts`. -/
structure NestingRule where
  parent : String
  child : String
  reason : String
  alternatives : List String
  references : List Reference
deriving DecidableEq

/-- Token produced by `tokenizeTags`; `type` is one of "open", "close",
"self-closing", exactly as in the source. -/
structure Token where
  type : String
  name : String
  offset : Nat
  length : Nat
deriving DecidableEq

/-- MarkupRegion `{ text, baseOffset }` from `parser.ts`. -/
structure MarkupRegion where
  text : String
  baseOffset : Nat
deriving DecidableEq

/-- Stack frame `{ name, offset }` used by `findNestingErrors`. -/
structure ParentFrame where
  name : String
  offset : Nat
deriving DecidableEq

/-- Violation record pushed by `findNestingErrors`. -/
structure NestingViolation where
  parent : String
  child : String
  offset : Nat
  length : Nat
  rule : NestingRule
deriving DecidableEq

/-- Violation record returned by `analyzeDocument`:
`{ ...err, absoluteOffset: err.offset + region.baseOffset }`. -/
structure AnalyzedViolation where
  parent : String
  child : String
  offset : Nat
  length : Nat
  rule : NestingRule
  absoluteOffset : Nat
deriving DecidableEq

/-- Etiquetas que NO pueden contener elementos de bloque (exported constant
`INLINE_ONLY_PARENTS` of `nestingRules.ts`; unused by the analyzer). -/
def INLINE_ONLY_PARENTS : List String :=
  ["a", "abbr", "acronym", "b", "bdo", "big", "br", "button",
   "cite", "code", "dfn", "em", "i", "img", "input", "kbd",
   "label", "map", "object", "output", "q", "samp", "select",
   "small", "span", "strong", "sub", "sup", "textarea", "time",
   "tt", "u", "var"]

/-- Elementos de bloque (exported constant `BLOCK_ELEMENTS` of
`nestingRules.ts`; unused by the analyzer). -/
def BLOCK_ELEMENTS : List String :=
  ["address", "article", "aside", "blockquote", "canvas", "dd",
   "details", "dialog", "div", "dl", "dt", "fieldset", "figcaption",
   "figure", "footer", "form", "h1", "h2", "h3", "h4", "h5", "h6",
   "header", "hgroup", "hr", "li", "main", "nav", "noscript", "ol",
   "p", "pre", "section", "summary", "table", "tbody", "td", "tfoot",
   "th", "thead", "tr", "ul"]

/-- Catálogo de etiquetas HTML estándar (`ALL_HTML_TAGS`). -/
def ALL_HTML_TAGS : List String :=
  ["a", "abbr", "address", "area", "article", "aside", "audio", "b",
   "base", "bdi", "bdo", "blockquote", "body", "br", "button", "canvas",
   "caption", "cite", "code", "col", "colgroup", "data", "datalist", "dd",
   "del", "details", "dfn", "dialog", "div", "dl", "dt", "em",
   "embed", "fieldset", "figcaption", "figure", "footer", "form", "h1", "h2",
   "h3", "h4", "h5", "h6", "head", "header", "hgroup", "hr",
   "html", "i", "iframe", "img", "input", "ins", "kbd", "label",
   "legend", "li", "link", "main", "map", "mark", "menu", "meta",
   "meter", "nav", "noscript", "object", "ol", "optgroup", "option", "output",
   "p", "param", "picture", "pre", "progress", "q", "rp", "rt",
   "ruby", "s", "samp", "script", "search", "section", "select", "slot",
   "small", "source", "span", "strong", "style", "sub", "summary", "sup",
   "table", "tbody", "td", "template", "textarea", "tfoot", "th", "thead",
   "time", "title", "tr", "track", "u", "ul", "var", "video", "wbr"]

/-- `HTML_TAGS_SET = new Set(ALL_HTML_TAGS)`, modelled as the list itself. -/
def HTML_TAGS_SET : List String := ALL_HTML_TAGS

/-- `PHRASING_CONTENT_TAGS` of `nestingRules.ts`. -/
def PHRASING_CONTENT_TAGS : List String :=
  ["a", "abbr", "audio", "b", "bdi", "bdo", "br", "button", "canvas",
   "cite", "code", "data", "datalist", "del", "dfn", "em", "embed", "i",
   "iframe", "img", "input", "ins", "kbd", "label", "map", "mark", "meter",
   "noscript", "object", "output", "picture", "progress", "q", "ruby", "s",
   "samp", "script", "select", "slot", "small", "span", "strong", "sub",
   "sup", "template", "textarea", "time", "u", "var", "video", "wbr"]

/-- Reglas explícitas de anidamiento inválido (`NESTING_RULES`). -/
def NESTING_RULES : List NestingRule := [
  { parent := "p", child := "div",
    reason := "<p> solo puede contener phrasing content (texto e inline). <div> es un bloque y cierra implícitamente el <p>.",
    alternatives := ["Usa <div> en lugar de <p> si necesitas contener bloques.", "Mueve el <div> fuera del <p>.", "Si quieres un párrafo con un wrapper, usa <section> o <article>."],
    references := [⟨"MDN: <p>", "https://developer.mozilla.org/es/docs/Web/HTML/Element/p"⟩,
                   ⟨"HTML Spec: phrasing content", "https://html.spec.whatwg.org/multipage/dom.html#phrasing-content"⟩] },
  { parent := "p", child := "h1",
    reason := "Los encabezados no pueden ir dentro de <p>.",
    alternatives := ["Cierra el <p> antes del encabezado.", "Usa <p> antes y después del encabezado."],
    references := [⟨"MDN: <p>", "https://developer.mozilla.org/es/docs/Web/HTML/Element/p"⟩] },
  { parent := "p", child := "h2",
    reason := "Los encabezados no pueden ir dentro de <p>.",
    alternatives := ["Cierra el <p> antes del encabezado."],
    references := [⟨"MDN: <p>", "https://developer.mozilla.org/es/docs/Web/HTML/Element/p"⟩] },
  { parent := "p", child := "h3",
    reason := "Los encabezados no pueden ir dentro de <p>.",
    alternatives := ["Cierra el <p> antes del encabezado."],
    references := [⟨"MDN: <p>", "https://developer.mozilla.org/es/docs/Web/HTML/Element/p"⟩] },
  { parent := "p", child := "h4",
    reason := "Los encabezados no pueden ir dentro de <p>.",
    alternatives := ["Cierra el <p> antes del encabezado."],
    references := [⟨"MDN: <p>", "https://developer.mozilla.org/es/docs/Web/HTML/Element/p"⟩] },
  { parent := "p", child := "h5",
    reason := "Los encabezados no pueden ir dentro de <p>.",
    alternatives := ["Cierra el <p> antes del encabezado."],
    references := [⟨"MDN: <p>", "https://developer.mozilla.org/es/docs/Web/HTML/Element/p"⟩] },
  { parent := "p", child := "h6",
    reason := "Los encabezados no pueden ir dentro de <p>.",
    alternatives := ["Cierra el <p> antes del encabezado."],
    references := [⟨"MDN: <p>", "https://developer.mozilla.org/es/docs/Web/HTML/Element/p"⟩] },
  { parent := "p", child := "ul",
    reason := "<ul> es un bloque y no puede ir dentro de <p>.",
    alternatives := ["Cierra <p> antes de la lista.", "Usa un <div> como wrapper en lugar de <p>."],
    references := [⟨"MDN: <p>", "https://developer.mozilla.org/es/docs/Web/HTML/Element/p"⟩] },
  { parent := "p", child := "ol",
    reason := "<ol> es un bloque y no puede ir dentro de <p>.",
    alternatives := ["Cierra <p> antes de la lista.", "Usa un <div> como wrapper."],
    references := [⟨"MDN: <p>", "https://developer.mozilla.org/es/docs/Web/HTML/Element/p"⟩] },
  { parent := "p", child := "table",
    reason := "<table> es un bloque y no puede ir dentro de <p>.",
    alternatives := ["Coloca la tabla fuera del <p>.", "Usa un <div> o <section> como contenedor."],
    references := [⟨"MDN: <p>", "https://developer.mozilla.org/es/docs/Web/HTML/Element/p"⟩] },
  { parent := "p", child := "form",
    reason := "<form> no puede anidarse dentro de <p>.",
    alternatives := ["Coloca el <form> fuera del <p>."],
    references := [⟨"MDN: <p>", "https://developer.mozilla.org/es/docs/Web/HTML/Element/p"⟩] },
  { parent := "p", child := "blockquote",
    reason := "<blockquote> es un bloque y no puede ir dentro de <p>.",
    alternatives := ["Coloca el <blockquote> fuera del <p>."],
    references := [⟨"MDN: <p>", "https://developer.mozilla.org/es/docs/Web/HTML/Element/p"⟩] },
  { parent := "p", child := "pre",
    reason := "<pre> es un bloque y no puede ir dentro de <p>.",
    alternatives := ["Coloca el <pre> fuera del <p>."],
    references := [⟨"MDN: <p>", "https://developer.mozilla.org/es/docs/Web/HTML/Element/p"⟩] },
  { parent := "p", child := "section",
    reason := "<section> es un bloque y no puede ir dentro de <p>.",
    alternatives := ["Usa <div> en lugar de <p>, o reestructura el contenido."],
    references := [⟨"MDN: <p>", "https://developer.mozilla.org/es/docs/Web/HTML/Element/p"⟩] },
  { parent := "p", child := "article",
    reason := "<article> es un bloque y no puede ir dentro de <p>.",
    alternatives := ["Usa <div> como contenedor en lugar de <p>."],
    references := [⟨"MDN: <p>", "https://developer.mozilla.org/es/docs/Web/HTML/Element/p"⟩] },
  { parent := "p", child := "aside",
    reason := "<aside> es un bloque y no puede ir dentro de <p>.",
    alternatives := ["Usa <div> como contenedor."],
    references := [⟨"MDN: <p>", "https://developer.mozilla.org/es/docs/Web/HTML/Element/p"⟩] },
  { parent := "p", child := "figure",
    reason := "<figure> es un bloque y no puede ir dentro de <p>.",
    alternatives := ["Coloca el <figure> fuera del <p>."],
    references := [⟨"MDN: <figure>", "https://developer.mozilla.org/es/docs/Web/HTML/Element/figure"⟩] },
  { parent := "p", child := "footer",
    reason := "<footer> es un bloque y no puede ir dentro de <p>.",
    alternatives := ["Coloca el <footer> fuera del <p>."],
    references := [⟨"MDN: <p>", "https://developer.mozilla.org/es/docs/Web/HTML/Element/p"⟩] },
  { parent := "p", child := "header",
    reason := "<header> es un bloque y no puede ir dentro de <p>.",
    alternatives := ["Coloca el <header> fuera del <p>."],
    references := [⟨"MDN: <p>", "https://developer.mozilla.org/es/docs/Web/HTML/Element/p"⟩] },
  { parent := "p", child := "nav",
    reason := "<nav> es un bloque y no puede ir dentro de <p>.",
    alternatives := ["Coloca el <nav> fuera del <p>."],
    references := [⟨"MDN: <p>", "https://developer.mozilla.org/es/docs/Web/HTML/Element/p"⟩] },
  { parent := "p", child := "main",
    reason := "<main> es un bloque y no puede ir dentro de <p>.",
    alternatives := ["Coloca el <main> fuera del <p>."],
    references := [⟨"MDN: <p>", "https://developer.mozilla.org/es/docs/Web/HTML/Element/p"⟩] },
  { parent := "a", child := "a",
    reason := "No puedes anidar un <a> dentro de otro <a>. Es inválido según la especificación HTML.",
    alternatives := ["Usa CSS para dar apariencia de enlace a un contenedor.", "Usa JavaScript (onclick) en un <div> o <span>.", "Reestructura el contenido para tener enlaces separados."],
    references := [⟨"MDN: <a>", "https://developer.mozilla.org/es/docs/Web/HTML/Element/a"⟩,
                   ⟨"HTML Spec: transparent content", "https://html.spec.whatwg.org/multipage/text-level-semantics.html#the-a-element"⟩] },
  { parent := "a", child := "button",
    reason := "Un <button> es interactivo y no puede estar dentro de un <a> (ambos son focusables).",
    alternatives := ["Usa solo <a> o solo <button>, no ambos.", "Si necesitas un enlace con estilo de botón, usa <a class=\x27btn\x27>.", "Si necesitas acción + navegación, maneja con JavaScript."],
    references := [⟨"MDN: <a>", "https://developer.mozilla.org/es/docs/Web/HTML/Element/a"⟩,
                   ⟨"WCAG: Interactive elements", "https://www.w3.org/WAI/WCAG21/Understanding/keyboard.html"⟩] },
  { parent := "a", child := "input",
    reason := "Elementos de formulario interactivos no deben ir dentro de <a>.",
    alternatives := ["Usa el formulario fuera del enlace.", "Usa JavaScript para la acción del input."],
    references := [⟨"MDN: <a>", "https://developer.mozilla.org/es/docs/Web/HTML/Element/a"⟩] },
  { parent := "a", child := "select",
    reason := "Elementos de formulario interactivos no deben ir dentro de <a>.",
    alternatives := ["Usa el select fuera del enlace."],
    references := [⟨"MDN: <a>", "https://developer.mozilla.org/es/docs/Web/HTML/Element/a"⟩] },
  { parent := "a", child := "textarea",
    reason := "Elementos de formulario interactivos no deben ir dentro de <a>.",
    alternatives := ["Usa el textarea fuera del enlace."],
    references := [⟨"MDN: <a>", "https://developer.mozilla.org/es/docs/Web/HTML/Element/a"⟩] },
  { parent := "button", child := "a",
    reason := "Un enlace <a> no puede estar dentro de un <button>. Crea conflictos de accesibilidad y comportamiento.",
    alternatives := ["Usa solo <a> con estilos CSS para que parezca botón.", "Usa solo <button> con JavaScript para la navegación.", "Usa <a role=\x27button\x27> para semántica de botón en un enlace."],
    references := [⟨"MDN: <button>", "https://developer.mozilla.org/es/docs/Web/HTML/Element/button"⟩,
                   ⟨"WCAG: Botones y enlaces", "https://www.w3.org/WAI/WCAG21/Techniques/html/H91"⟩] },
  { parent := "button", child := "button",
    reason := "No puedes anidar un <button> dentro de otro <button>.",
    alternatives := ["Usa botones separados.", "Usa CSS para crear grupos de botones visualmente."],
    references := [⟨"MDN: <button>", "https://developer.mozilla.org/es/docs/Web/HTML/Element/button"⟩] },
  { parent := "button", child := "input",
    reason := "Elementos de formulario interactivos no deben ir dentro de <button>.",
    alternatives := ["Usa el input fuera del botón."],
    references := [⟨"MDN: <button>", "https://developer.mozilla.org/es/docs/Web/HTML/Element/button"⟩] },
  { parent := "table", child := "div",
    reason := "<div> no puede ser hijo directo de <table>. Los hijos válidos son: <thead>, <tbody>, <tfoot>, <tr>, <caption>, <colgroup>.",
    alternatives := ["Usa <td> o <th> para el contenido.", "Coloca el <div> dentro de una celda <td>.", "Considera usar CSS Grid o Flexbox si no necesitas semántica de tabla."],
    references := [⟨"MDN: <table>", "https://developer.mozilla.org/es/docs/Web/HTML/Element/table"⟩,
                   ⟨"HTML Spec: table", "https://html.spec.whatwg.org/multipage/tables.html#the-table-element"⟩] },
  { parent := "table", child := "p",
    reason := "<p> no puede ser hijo directo de <table>.",
    alternatives := ["Coloca el <p> dentro de una celda <td>.", "Usa <caption> para texto descriptivo de la tabla."],
    references := [⟨"MDN: <table>", "https://developer.mozilla.org/es/docs/Web/HTML/Element/table"⟩] },
  { parent := "tr", child := "div",
    reason := "<div> no puede ser hijo directo de <tr>. Solo se permiten <td> y <th>.",
    alternatives := ["Coloca el <div> dentro de <td>.", "Usa CSS para lograr el layout deseado dentro de la celda."],
    references := [⟨"MDN: <tr>", "https://developer.mozilla.org/es/docs/Web/HTML/Element/tr"⟩] },
  { parent := "tr", child := "p",
    reason := "<p> no puede ser hijo directo de <tr>. Solo se permiten <td> y <th>.",
    alternatives := ["Coloca el <p> dentro de <td>."],
    references := [⟨"MDN: <tr>", "https://developer.mozilla.org/es/docs/Web/HTML/Element/tr"⟩] },
  { parent := "tr", child := "span",
    reason := "<span> no puede ser hijo directo de <tr>.",
    alternatives := ["Coloca el <span> dentro de <td>."],
    references := [⟨"MDN: <tr>", "https://developer.mozilla.org/es/docs/Web/HTML/Element/tr"⟩] },
  { parent := "tr", child := "a",
    reason := "<a> no puede ser hijo directo de <tr>.",
    alternatives := ["Coloca el enlace dentro de <td>."],
    references := [⟨"MDN: <tr>", "https://developer.mozilla.org/es/docs/Web/HTML/Element/tr"⟩] },
  { parent := "ul", child := "div",
    reason := "<ul> solo puede contener elementos <li> como hijos directos.",
    alternatives := ["Envuelve el <div> dentro de un <li>.", "Usa CSS Flexbox/Grid en lugar de <ul> si no necesitas semántica de lista."],
    references := [⟨"MDN: <ul>", "https://developer.mozilla.org/es/docs/Web/HTML/Element/ul"⟩] },
  { parent := "ul", child := "p",
    reason := "<ul> solo puede contener elementos <li> como hijos directos.",
    alternatives := ["Envuelve el <p> dentro de un <li>."],
    references := [⟨"MDN: <ul>", "https://developer.mozilla.org/es/docs/Web/HTML/Element/ul"⟩] },
  { parent := "ul", child := "span",
    reason := "<ul> solo puede contener elementos <li> como hijos directos.",
    alternatives := ["Envuelve el <span> dentro de un <li>."],
    references := [⟨"MDN: <ul>", "https://developer.mozilla.org/es/docs/Web/HTML/Element/ul"⟩] },
  { parent := "ul", child := "a",
    reason := "<ul> solo puede contener <li> como hijos directos.",
    alternatives := ["Envuelve el <a> dentro de un <li>."],
    references := [⟨"MDN: <ul>", "https://developer.mozilla.org/es/docs/Web/HTML/Element/ul"⟩] },
  { parent := "ol", child := "div",
    reason := "<ol> solo puede contener elementos <li> como hijos directos.",
    alternatives := ["Envuelve el <div> dentro de un <li>."],
    references := [⟨"MDN: <ol>", "https://developer.mozilla.org/es/docs/Web/HTML/Element/ol"⟩] },
  { parent := "ol", child := "p",
    reason := "<ol> solo puede contener elementos <li> como hijos directos.",
    alternatives := ["Envuelve el <p> dentro de un <li>."],
    references := [⟨"MDN: <ol>", "https://developer.mozilla.org/es/docs/Web/HTML/Element/ol"⟩] },
  { parent := "head", child := "div",
    reason := "<head> no puede contener elementos visibles como <div>.",
    alternatives := ["Coloca el <div> dentro del <body>.", "Usa <meta>, <link>, <script> o <style> dentro de <head>."],
    references := [⟨"MDN: <head>", "https://developer.mozilla.org/es/docs/Web/HTML/Element/head"⟩] },
  { parent := "head", child := "p",
    reason := "<head> no puede contener elementos visibles como <p>.",
    alternatives := ["Coloca el contenido dentro del <body>."],
    references := [⟨"MDN: <head>", "https://developer.mozilla.org/es/docs/Web/HTML/Element/head"⟩] },
  { parent := "form", child := "form",
    reason := "No puedes anidar un <form> dentro de otro <form>.",
    alternatives := ["Usa un solo formulario con fieldsets para agrupar.", "Usa JavaScript para manejar múltiples sets de datos.", "Usa <dialog> para formularios secundarios."],
    references := [⟨"MDN: <form>", "https://developer.mozilla.org/es/docs/Web/HTML/Element/form"⟩,
                   ⟨"HTML Spec: form", "https://html.spec.whatwg.org/multipage/form-elements.html#the-form-element"⟩] },
  { parent := "h1", child := "h1",
    reason := "No puedes anidar encabezados del mismo nivel.",
    alternatives := ["Usa encabezados jerárquicos (h1 > h2 > h3...)."],
    references := [⟨"MDN: Headings", "https://developer.mozilla.org/es/docs/Web/HTML/Element/Heading_Elements"⟩] },
  { parent := "h1", child := "h2",
    reason := "No puedes anidar encabezados dentro de otros encabezados.",
    alternatives := ["Usa los encabezados como elementos separados, no anidados."],
    references := [⟨"MDN: Headings", "https://developer.mozilla.org/es/docs/Web/HTML/Element/Heading_Elements"⟩] },
  { parent := "h2", child := "h1",
    reason := "No puedes anidar encabezados.",
    alternatives := ["Usa los encabezados como elementos separados."],
    references := [⟨"MDN: Headings", "https://developer.mozilla.org/es/docs/Web/HTML/Element/Heading_Elements"⟩] },
  { parent := "label", child := "label",
    reason := "No puedes anidar un <label> dentro de otro <label>.",
    alternatives := ["Usa etiquetas separadas para cada control de formulario."],
    references := [⟨"MDN: <label>", "https://developer.mozilla.org/es/docs/Web/HTML/Element/label"⟩] },
  { parent := "select", child := "div",
    reason := "<select> solo puede contener <option> y <optgroup>.",
    alternatives := ["Usa <option> para las opciones.", "Si necesitas más control visual, considera librerías de UI custom."],
    references := [⟨"MDN: <select>", "https://developer.mozilla.org/es/docs/Web/HTML/Element/select"⟩] },
  { parent := "select", child := "span",
    reason := "<select> solo puede contener <option> y <optgroup>.",
    alternatives := ["Usa <option> dentro de <select>."],
    references := [⟨"MDN: <select>", "https://developer.mozilla.org/es/docs/Web/HTML/Element/select"⟩] },
  { parent := "figcaption", child := "figcaption",
    reason := "No puedes anidar <figcaption> dentro de otro <figcaption>.",
    alternatives := ["Usa solo un <figcaption> por <figure>."],
    references := [⟨"MDN: <figcaption>", "https://developer.mozilla.org/es/docs/Web/HTML/Element/figcaption"⟩] },
  { parent := "summary", child := "div",
    reason := "<summary> solo puede contener phrasing content. <div> es un bloque.",
    alternatives := ["Usa <span> o texto directamente en <summary>."],
    references := [⟨"MDN: <summary>", "https://developer.mozilla.org/es/docs/Web/HTML/Element/summary"⟩] },
  { parent := "dt", child := "div",
    reason := "<dt> solo puede contener phrasing content.",
    alternatives := ["Usa solo texto o elementos inline dentro de <dt>."],
    references := [⟨"MDN: <dt>", "https://developer.mozilla.org/es/docs/Web/HTML/Element/dt"⟩] },
  { parent := "caption", child := "table",
    reason := "No puedes anidar una tabla dentro de <caption>.",
    alternatives := ["Usa <p> o texto simple en <caption>."],
    references := [⟨"MDN: <caption>", "https://developer.mozilla.org/es/docs/Web/HTML/Element/caption"⟩] }
]

/-- `DEFAULT_REFS` of `nestingRules.ts`. -/
def DEFAULT_REFS : List Reference :=
  [⟨"HTML Living Standard", "https://html.spec.whatwg.org/"⟩,
   ⟨"MDN: Referencia HTML", "https://developer.mozilla.org/es/docs/Web/HTML/Element"⟩]

/-- `makeRule` of `nestingRules.ts` (the `references = DEFAULT_REFS` default
argument is passed explicitly at every call site below). -/
def makeRule (parent child reason : String) (alternatives : List String)
    (references : List Reference) : NestingRule :=
  ⟨parent, child, reason, alternatives, references⟩

/-- `generateRulesForAllowedChildren`: one rule for every catalog tag NOT in
the allowed-children set (the source loop `for child of ALL_HTML_TAGS: if
not allowed.has(child) push makeRule ...`, written as filter + map). -/
def generateRulesForAllowedChildren (parent : String) (allowedChildren : List String)
    (reason : String) (alternatives : List String) (references : List Reference) :
    List NestingRule :=
  (ALL_HTML_TAGS.filter (fun child => !(allowedChildren.contains child))).map
    (fun child => makeRule parent child reason alternatives references)

/-- Iteration order of `new Set(['a','button','input','select','textarea','label','details'])`
in `generateAutomaticRules` (JS sets iterate in insertion order). -/
def INTERACTIVE_INSIDE_A : List String :=
  ["a", "button", "input", "select", "textarea", "label", "details"]

/-- Iteration order of the `interactiveInsideButton` set. -/
def INTERACTIVE_INSIDE_BUTTON : List String :=
  ["a", "button", "input", "select", "textarea", "label", "details", "form"]

/-- Parent tags that only admit phrasing content (`phrasingOnlyParents`). -/
def PHRASING_ONLY_PARENTS : List String :=
  ["p", "summary", "dt", "legend", "h1", "h2", "h3", "h4", "h5", "h6"]

/-- First group pushed by `generateAutomaticRules`: strict children of
`<html>`. Every `autoRules.push(...)` group of the source is a named
definition here so that theorems can reason about the concatenation
group by group. -/
def autoGroupHtml : List NestingRule :=
  generateRulesForAllowedChildren "html" ["head", "body"]
    "<html> solo puede contener <head> y <body> como hijos directos."
    ["Mueve este elemento dentro de <head> o <body> según corresponda."] DEFAULT_REFS

/-- Strict children of `<head>`. -/
def autoGroupHead : List NestingRule :=
  generateRulesForAllowedChildren "head"
    ["base", "link", "meta", "noscript", "script", "style", "template", "title"]
    "<head> solo puede contener metadatos y recursos del documento."
    ["Mueve contenido visible dentro de <body>."] DEFAULT_REFS

/-- Strict children of `<table>`. -/
def autoGroupTable : List NestingRule :=
  generateRulesForAllowedChildren "table"
    ["caption", "colgroup", "thead", "tbody", "tfoot", "tr", "script", "template"]
    "<table> tiene una estructura de hijos directos restringida por la especificación."
    ["Usa <thead>, <tbody>, <tfoot> y filas <tr> para estructurar la tabla."] DEFAULT_REFS

/-- Strict children of `<colgroup>`. -/
def autoGroupColgroup : List NestingRule :=
  generateRulesForAllowedChildren "colgroup" ["col", "template"]
    "<colgroup> solo admite <col> (y opcionalmente <template>)."
    ["Reemplaza este hijo por elementos <col>."] DEFAULT_REFS

/-- Strict children of a table section tag (`thead`/`tbody`/`tfoot`). -/
def autoGroupSection (sectionTag : String) : List NestingRule :=
  generateRulesForAllowedChildren sectionTag ["tr", "script", "template"]
    ("<" ++ sectionTag ++ "> solo admite filas <tr> como hijos directos.")
    ["Mueve este elemento dentro de una celda (<td>/<th>) dentro de <tr>."] DEFAULT_REFS

/-- Strict children of `<tr>`. -/
def autoGroupTr : List NestingRule :=
  generateRulesForAllowedChildren "tr" ["td", "th", "script", "template"]
    "<tr> solo puede contener celdas <td> o encabezados <th>."
    ["Encapsula el contenido dentro de <td> o <th>."] DEFAULT_REFS

/-- Strict children of a list tag (`ul`/`ol`/`menu`). -/
def autoGroupList (listTag : String) : List NestingRule :=
  generateRulesForAllowedChildren listTag ["li", "script", "template"]
    ("<" ++ listTag ++ "> solo puede contener <li> como hijos directos.")
    ["Envuelve el contenido en <li>."] DEFAULT_REFS

/-- Strict children of `<dl>`. -/
def autoGroupDl : List NestingRule :=
  generateRulesForAllowedChildren "dl" ["dt", "dd", "script", "template"]
    "<dl> solo puede contener pares <dt>/<dd> como hijos directos."
    ["Usa <dt> para términos y <dd> para descripciones."] DEFAULT_REFS

/-- Strict children of `<select>`. -/
def autoGroupSelect : List NestingRule :=
  generateRulesForAllowedChildren "select" ["option", "optgroup", "hr", "script", "template"]
    "<select> solo admite <option> y <optgroup> como contenido principal."
    ["Reemplaza este elemento por <option> u <optgroup>."] DEFAULT_REFS

/-- Strict children of `<optgroup>`. -/
def autoGroupOptgroup : List NestingRule :=
  generateRulesForAllowedChildren "optgroup" ["option", "script", "template"]
    "<optgroup> solo puede contener elementos <option>."
    ["Mueve este nodo fuera del <optgroup> o conviértelo en <option>."] DEFAULT_REFS

/-- Strict children of `<picture>`. -/
def autoGroupPicture : List NestingRule :=
  generateRulesForAllowedChildren "picture" ["source", "img", "script", "template"]
    "<picture> solo puede contener <source> y un <img> de fallback."
    ["Usa <source> para variantes y <img> como fallback."] DEFAULT_REFS

/-- Phrasing-content-only parent group. -/
def autoGroupPhrasing (parent : String) : List NestingRule :=
  generateRulesForAllowedChildren parent PHRASING_CONTENT_TAGS
    ("<" ++ parent ++ "> solo puede contener phrasing content (contenido inline).")
    ["Mueve elementos de bloque fuera del contenedor o usa un wrapper de bloque."] DEFAULT_REFS

/-- Interactive elements forbidden inside `<a>`. -/
def autoGroupInsideA : List NestingRule :=
  INTERACTIVE_INSIDE_A.map (fun child =>
    makeRule "a" child "<a> no debe contener elementos interactivos anidados."
      ["Usa un único elemento interactivo por control de UI."] DEFAULT_REFS)

/-- Interactive elements forbidden inside `<button>`. -/
def autoGroupInsideButton : List NestingRule :=
  INTERACTIVE_INSIDE_BUTTON.map (fun child =>
    makeRule "button" child "<button> no debe contener elementos interactivos anidados."
      ["Usa controles separados o reestructura la interacción."] DEFAULT_REFS)

/-- Nested `<form>` rule. -/
def autoGroupForm : List NestingRule :=
  [makeRule "form" "form" "No puedes anidar un <form> dentro de otro <form>."
    ["Usa un único formulario y agrupa secciones con <fieldset>."] DEFAULT_REFS]

/-- Nested `<label>` rule. -/
def autoGroupLabel : List NestingRule :=
  [makeRule "label" "label" "No puedes anidar un <label> dentro de otro <label>."
    ["Usa etiquetas separadas para cada control de formulario."] DEFAULT_REFS]

/-- Final filter of `generateAutomaticRules`: keep only rules whose parent
AND child belong to the HTML tag catalog. -/
def keepCatalog (rules : List NestingRule) : List NestingRule :=
  rules.filter (fun rule =>
    HTML_TAGS_SET.contains rule.parent && HTML_TAGS_SET.contains rule.child)

/-- `generateAutomaticRules` of `nestingRules.ts`: the groups are pushed in
source order into `autoRules`, then filtered to catalog-only tags. -/
def generateAutomaticRules : List NestingRule :=
  keepCatalog
    (autoGroupHtml
     ++ autoGroupHead
     ++ autoGroupTable
     ++ autoGroupColgroup
     ++ (["thead", "tbody", "tfoot"].map autoGroupSection).flatten
     ++ autoGroupTr
     ++ (["ul", "ol", "menu"].map autoGroupList).flatten
     ++ autoGroupDl
     ++ autoGroupSelect
     ++ autoGroupOptgroup
     ++ autoGroupPicture
     ++ (PHRASING_ONLY_PARENTS.map autoGroupPhrasing).flatten
     ++ autoGroupInsideA
     ++ autoGroupInsideButton
     ++ autoGroupForm
     ++ autoGroupLabel)

/-- `GENERATED_NESTING_RULES = generateAutomaticRules()`. -/
def GENERATED_NESTING_RULES : List NestingRule := generateAutomaticRules

/-- `NESTING_RULES_COMPLETE = [...NESTING_RULES, ...GENERATED_NESTING_RULES]`:
explicit rules first, generated rules second. -/
def NESTING_RULES_COMPLETE : List NestingRule :=
  NESTING_RULES ++ GENERATED_NESTING_RULES

/-- `buildRulesMap`: the insertion list of `map.set(parent + "::" + child, rule)`
calls, in source order. -/
def buildRulesMap (rules : List NestingRule) : List (String × NestingRule) :=
  rules.map (fun rule => (rule.parent ++ "::" ++ rule.child, rule))

/-- `RULES_MAP = buildRulesMap(NESTING_RULES_COMPLETE)`. -/
def RULES_MAP : List (String × NestingRule) := buildRulesMap NESTING_RULES_COMPLETE

/-- `Map.get`: since `Map.set` overwrites the value stored for an existing
key, `get` returns the value of the LAST insertion with the given key. -/
def mapGet (m : List (String × NestingRule)) (k : String) : Option NestingRule :=
  match m with
  | [] => none
  | e :: rest =>
    match mapGet rest k with
    | some v => some v
    | none => if e.1 = k then some e.2 else none

/-- Void elements (`VOID_ELEMENTS` of `parser.ts`). -/
def VOID_ELEMENTS : List String :=
  ["area", "base", "br", "col", "embed", "hr", "img", "input",
   "link", "meta", "param", "source", "track", "wbr"]

/-- Raw-text tags whose content is skipped (`SKIP_CONTENT_TAGS`). -/
def SKIP_CONTENT_TAGS : List String := ["script", "style", "template"]

/-- Character class `[a-zA-Z]` of the tag regex. -/
def isTagStartChar (c : Char) : Bool :=
  (decide (65 ≤ c.toNat) && decide (c.toNat ≤ 90)) ||
  (decide (97 ≤ c.toNat) && decide (c.toNat ≤ 122))

/-- Character class `[a-zA-Z0-9-]` of the tag regex. -/
def isTagNameChar (c : Char) : Bool :=
  isTagStartChar c || (decide (48 ≤ c.toNat) && decide (c.toNat ≤ 57)) || c == '-'

/-- Result of matching the tag regex at one position: the raw captured name,
whether the match begins with `</`, whether it ends with `/>`, and the full
match length. -/
structure TagMatch where
  nameChars : List Char
  isClose : Bool
  selfClose : Bool
  len : Nat
deriving DecidableEq

/-- Index of the first occurrence of `c` (JS `indexOf` on the remaining
text; `none` for -1). -/
def firstIdxOf (c : Char) : List Char → Option Nat
  | [] => none
  | d :: rest => if d = c then some 0 else (firstIdxOf c rest).map (· + 1)

/-- Match the name-and-rest part of the tag regex, after `<` and the optional
`/` were consumed. The greedy `\s*(?:[^>]*)?` extends to the first `>` after
the name, so the match succeeds exactly when such a `>` exists; `(\/?)` is
then forced empty, and `full.endsWith("/>")` holds exactly when the character
just before that `>` is a `/`. -/
def matchName (r : List Char) (isClose : Bool) : Option TagMatch :=
  match r with
  | [] => none
  | c :: cs =>
    if isTagStartChar c then
      match firstIdxOf '>' (cs.dropWhile isTagNameChar) with
      | some d =>
        some ⟨c :: cs.takeWhile isTagNameChar, isClose,
          decide (0 < d ∧ (cs.dropWhile isTagNameChar).get? (d - 1) = some '/'),
          (if isClose then 2 else 1) + (c :: cs.takeWhile isTagNameChar).length + d + 1⟩
      | none => none
    else none

/-- Consume the optional `/` of `<\/?`. A `/` not followed by a tag-name
letter cannot be saved by backtracking (the name would have to start at the
`/` itself), so the branch is deterministic. -/
def matchAfterLt : List Char → Option TagMatch
  | [] => none
  | c :: r => if c = '/' then matchName r true else matchName (c :: r) false

/-- Match the tag regex `<\/?([a-zA-Z][a-zA-Z0-9-]*)\s*(?:[^>]*)?(\/?)>` at
the start of `cs`. -/
def matchTagAt (cs : List Char) : Option TagMatch :=
  match cs with
  | '<' :: rest => matchAfterLt rest
  | _ => none

/-- Main loop of `tokenizeTags`: `regex.exec` advances to the next match (one
character at a time past non-matching positions, to the match end on
success), maintaining the `skipUntil` raw-text state. `none` = out of fuel. -/
def tokenizeLoop (fuel : Nat) (cs : List Char) (pos : Nat) (skipUntil : Option String) :
    Option (List Token) :=
  match fuel with
  | 0 => none
  | fuel + 1 =>
    match cs with
    | [] => some []
    | _ :: rest =>
      match matchTagAt cs with
      | none => tokenizeLoop fuel rest (pos + 1) skipUntil
      | some m =>
        match skipUntil with
        | some s =>
          if m.isClose ∧ String.mk (m.nameChars.map Char.toLower) = s then
            tokenizeLoop fuel (cs.drop m.len) (pos + m.len) none
          else tokenizeLoop fuel (cs.drop m.len) (pos + m.len) (some s)
        | none =>
          if !m.isClose && SKIP_CONTENT_TAGS.contains (String.mk (m.nameChars.map Char.toLower)) then
            tokenizeLoop fuel (cs.drop m.len) (pos + m.len)
              (some (String.mk (m.nameChars.map Char.toLower)))
          else
            (tokenizeLoop fuel (cs.drop m.len) (pos + m.len) none).map
              (fun ts =>
                ⟨(if m.isClose then "close"
                  else if m.selfClose ||
                      VOID_ELEMENTS.contains (String.mk (m.nameChars.map Char.toLower)) then
                    "self-closing"
                  else "open"),
                 String.mk (m.nameChars.map Char.toLower), pos, m.len⟩ :: ts)

/-- Fueled `tokenizeTags` (fuel `length + 1` provably suffices). -/
def tokenizeTagsF (text : String) : Option (List Token) :=
  tokenizeLoop (text.data.length + 1) text.data 0 none

/-- Total view of the tokenizer loop from an arbitrary state. -/
def tokenizeFrom (cs : List Char) (pos : Nat) (skipUntil : Option String) : List Token :=
  (tokenizeLoop (cs.length + 1) cs pos skipUntil).getD []

/-- `tokenizeTags` of `parser.ts`. -/
def tokenizeTags (text : String) : List Token :=
  tokenizeFrom text.data 0 none

/-- Search the stack from the top for the nearest frame named `n`; `some s`
means that frame and everything above it are removed leaving `s`. This is
the `for (i = stack.length - 1; ...) if (stack[i].name === name) { stack.splice(i); break }`
loop of `findNestingErrors` (list head = stack top). -/
def popToMatch (n : String) : List ParentFrame → Option (List ParentFrame)
  | [] => none
  | f :: rest => if f.name = n then some rest else popToMatch n rest

/-- Effect of a close token on the stack: pop to the nearest matching frame,
or leave the stack unchanged when no frame matches. -/
def closeStack (n : String) (stack : List ParentFrame) : List ParentFrame :=
  (popToMatch n stack).getD stack

/-- The `if (rule) errors.push({parent, child, offset, length, rule})` step
of `findNestingErrors`, with `rule` the result of the RULES_MAP lookup. -/
def emitViolation (parentName : String) (token : Token) (rule : Option NestingRule) :
    List NestingViolation :=
  match rule with
  | some rule => [⟨parentName, token.name, token.offset, token.length, rule⟩]
  | none => []

/-- Emission on an "open" token: if the stack is non-empty, look up
`parent::child` in RULES_MAP and report the violation when a rule exists
(the `if (stack.length > 0) { const rule = RULES_MAP.get(key); if (rule)
errors.push({...}) }` block of `findNestingErrors`). -/
def checkOpenEmission (stack : List ParentFrame) (token : Token) : List NestingViolation :=
  match stack with
  | [] => []
  | top :: _ => emitViolation top.name token (mapGet RULES_MAP (top.name ++ "::" ++ token.name))

/-- Token-replay loop of `findNestingErrors` over the explicit stack. -/
def findNestingErrorsAux (tokens : List Token) (stack : List ParentFrame) :
    List NestingViolation :=
  match tokens with
  | [] => []
  | token :: rest =>
    if token.type = "open" then
      checkOpenEmission stack token
        ++ findNestingErrorsAux rest (⟨token.name, token.offset⟩ :: stack)
    else if token.type = "close" then
      findNestingErrorsAux rest (closeStack token.name stack)
    else
      findNestingErrorsAux rest stack

/-- `findNestingErrors` of `parser.ts`. -/
def findNestingErrors (tokens : List Token) : List NestingViolation :=
  findNestingErrorsAux tokens []

/-- Word character `\w = [A-Za-z0-9_]` (for the `\b` of `\breturn`). -/
def isWordChar (c : Char) : Bool :=
  isTagStartChar c || (decide (48 ≤ c.toNat) && decide (c.toNat ≤ 57)) || c == '_'

/-- ASCII white space for `\s` (the analysed sources are ASCII). -/
def isJsSpace (c : Char) : Bool :=
  c == ' ' || c == '\t' || c == '\n' || c == '\r' ||
  decide (c.toNat = 11) || decide (c.toNat = 12)

/-- Match `\breturn\s*\(\s*` at the current position; `prev` is the character
before the position (`none` at offset 0). Returns the match length. -/
def matchReturnHere (prev : Option Char) (cs : List Char) : Option Nat :=
  if (match prev with | some p => isWordChar p | none => false) then none
  else
    match cs with
    | 'r' :: 'e' :: 't' :: 'u' :: 'r' :: 'n' :: rest =>
      match rest.dropWhile isJsSpace with
      | '(' :: rest2 =>
        some (6 + (rest.takeWhile isJsSpace).length + 1 + (rest2.takeWhile isJsSpace).length)
      | _ => none
    | _ => none

/-- Find the next `\breturn\s*\(\s*` match in `cs` (which starts at absolute
index `idx`); returns (absolute match index, match length). -/
def findReturn (prev : Option Char) (cs : List Char) (idx : Nat) : Option (Nat × Nat) :=
  match cs with
  | [] => none
  | c :: rest =>
    match matchReturnHere prev (c :: rest) with
    | some len => some (idx, len)
    | none => findReturn (some c) rest (idx + 1)

/-- Balanced-parenthesis scan of `extractJsxRegions`: starting with the given
depth, count how many characters the `while (i < length && depth > 0)` loop
consumes. -/
def parenScan : List Char → Nat → Nat
  | [], _ => 0
  | c :: rest, depth =>
    if depth = 0 then 0
    else 1 + parenScan rest (if c = '(' then depth + 1 else if c = ')' then depth - 1 else depth)

/-- JS `content.indexOf(c, start)` (absolute index; `none` for -1). -/
def idxOfFrom (full : List Char) (c : Char) (start : Nat) : Option Nat :=
  (firstIdxOf c (full.drop start)).map (· + start)

/-- Main `returnRegex.exec` loop of `extractJsxRegions`, from absolute
position `idx` in `full`. -/
def jsxLoop (fuel : Nat) (full : List Char) (idx : Nat) : Option (List MarkupRegion) :=
  match fuel with
  | 0 => none
  | fuel + 1 =>
    match findReturn (if idx = 0 then none else full.get? (idx - 1)) (full.drop idx) idx with
    | none => some []
    | some (mIdx, mLen) =>
      match idxOfFrom full '<' (mIdx + mLen) with
      | none => jsxLoop fuel full (mIdx + mLen)
      | some ltIdx =>
        (jsxLoop fuel full (mIdx + mLen)).map (fun rs =>
          ⟨String.mk ((full.drop ltIdx).take
              (mIdx + mLen + parenScan (full.drop (mIdx + mLen)) 1 - 1 - ltIdx)),
           ltIdx⟩ :: rs)

/-- Fueled `extractJsxRegions` (with the final whole-text fallback when no
region was pushed). -/
def extractJsxRegionsF (content : String) : Option (List MarkupRegion) :=
  (jsxLoop (content.data.length + 1) content.data 0).map
    (fun regions => if regions.isEmpty then [⟨content, 0⟩] else regions)

/-- `extractJsxRegions` of `parser.ts`. -/
def extractJsxRegions (content : String) : List MarkupRegion :=
  (extractJsxRegionsF content).getD [⟨content, 0⟩]

/-- Case-insensitive prefix test against a lowercase pattern (the regex `i`
flag; ASCII folding). -/
def startsWithCI : List Char → List Char → Bool
  | [], _ => true
  | _ :: _, [] => false
  | p :: ps, c :: cs => c.toLower == p && startsWithCI ps cs

/-- Lazy `([\s\S]*?)<\/template>`: index of the first position where
`</template>` matches case-insensitively. -/
def findCloseTemplate : List Char → Option Nat
  | [] => none
  | c :: rest =>
    if startsWithCI "</template>".data (c :: rest) then some 0
    else (findCloseTemplate rest).map (· + 1)

/-- Components of a successful `/<template[^>]*>([\s\S]*?)<\/template>/i`
match: start index, opening-tag length, inner length, full match length. -/
structure TMatch where
  idx : Nat
  openLen : Nat
  innerLen : Nat
  fullLen : Nat
deriving DecidableEq

/-- Match the template regex at one position: `<template` case-insensitively,
then greedy `[^>]*` up to the first `>`, then the lazy inner text up to the
first case-insensitive `</template>`. -/
def matchTemplateAt (cs : List Char) : Option (Nat × Nat × Nat) :=
  if startsWithCI "<template".data cs then
    match firstIdxOf '>' (cs.drop 9) with
    | some d =>
      match findCloseTemplate (cs.drop (9 + d + 1)) with
      | some k => some (9 + d + 1, k, 9 + d + 1 + k + 11)
      | none => none
    | none => none
  else none

/-- Leftmost match of the template regex (the `regex.exec(content)` of
`extractTemplateRegion`). -/
def findTemplateMatch : List Char → Nat → Option TMatch
  | [], _ => none
  | c :: rest, i =>
    match matchTemplateAt (c :: rest) with
    | some (oL, iL, fL) => some ⟨i, oL, iL, fL⟩
    | none => findTemplateMatch rest (i + 1)

/-- `extractTemplateRegion` of `parser.ts`:
`offset = match.index + match[0].indexOf(">") + 1`, region text = capture 1.
The match always contains a `>` (end of the opening tag), so the `getD`
branch of the `indexOf` is unreachable. -/
def extractTemplateRegion (content : String) : List MarkupRegion :=
  match findTemplateMatch content.data 0 with
  | some m =>
    [⟨String.mk (((content.data.drop m.idx).drop m.openLen).take m.innerLen),
      m.idx + (firstIdxOf '>' ((content.data.drop m.idx).take m.fullLen)).getD
        ((content.data.drop m.idx).take m.fullLen).length + 1⟩]
  | none => [⟨content, 0⟩]

/-- Fueled `extractMarkupRegions` (the `switch (languageId)`). -/
def extractMarkupRegionsF (content : String) (languageId : String) :
    Option (List MarkupRegion) :=
  if languageId = "html" then some [⟨content, 0⟩]
  else if languageId = "javascriptreact" ∨ languageId = "typescriptreact" then
    extractJsxRegionsF content
  else if languageId = "vue" ∨ languageId = "svelte" then
    some (extractTemplateRegion content)
  else if languageId = "html-angular" then some [⟨content, 0⟩]
  else some [⟨content, 0⟩]

/-- `extractMarkupRegions` of `parser.ts`. -/
def extractMarkupRegions (content : String) (languageId : String) : List MarkupRegion :=
  if languageId = "html" then [⟨content, 0⟩]
  else if languageId = "javascriptreact" ∨ languageId = "typescriptreact" then
    extractJsxRegions content
  else if languageId = "vue" ∨ languageId = "svelte" then
    extractTemplateRegion content
  else if languageId = "html-angular" then [⟨content, 0⟩]
  else [⟨content, 0⟩]

/-- Violations of one region, translated by its base offset
(`allErrors.push({...err, absoluteOffset: err.offset + region.baseOffset})`). -/
def analyzeRegion (region : MarkupRegion) : List AnalyzedViolation :=
  (findNestingErrors (tokenizeTags region.text)).map
    (fun err => ⟨err.parent, err.child, err.offset, err.length, err.rule,
                 err.offset + region.baseOffset⟩)

/-- `analyzeDocument` of `parser.ts`. -/
def analyzeDocument (content : String) (languageId : String) : List AnalyzedViolation :=
  ((extractMarkupRegions content languageId).map analyzeRegion).flatten

/-- Fueled region analysis. -/
def analyzeRegionF (region : MarkupRegion) : Option (List AnalyzedViolation) :=
  (tokenizeTagsF region.text).map (fun tokens =>
    (findNestingErrors tokens).map
      (fun err => ⟨err.parent, err.child, err.offset, err.length, err.rule,
                   err.offset + region.baseOffset⟩))

/-- Fueled `analyzeDocument`: `none` would mean one of the scanning loops ran
out of fuel. -/
def analyzeDocumentF (content : String) (languageId : String) :
    Option (List AnalyzedViolation) := do
  let regions ← extractMarkupRegionsF content languageId
  let errorLists ← regions.mapM analyzeRegionF
  return errorLists.flatten

/-- Lowercase tag name as it occurs in the rule catalog: a lowercase ASCII
letter followed by lowercase letters, digits or hyphens. Every such string
is matched verbatim by the tag regex and is fixed by `toLowerCase`. -/
def isLowerTagName (s : String) : Bool :=
  match s.data with
  | [] => false
  | c :: rest =>
    (decide (97 ≤ c.toNat) && decide (c.toNat ≤ 122)) &&
    rest.all (fun d =>
      (decide (97 ≤ d.toNat) && decide (d.toNat ≤ 122)) ||
      (decide (48 ≤ d.toNat) && decide (d.toNat ≤ 57)) || d == '-')

/-- Tokenizer-eye view of "where does the raw-text skip state named `s` end":
replay the same match-and-advance discipline as `tokenizeLoop`, returning the
total number of characters consumed up to and including the first close tag
named `s`, or the completed marker `some none` when no such close tag is ever
matched. Outer `none` = out of fuel. -/
def skipEndLoop (fuel : Nat) (s : String) (cs : List Char) : Option (Option Nat) :=
  match fuel with
  | 0 => none
  | fuel + 1 =>
    match cs with
    | [] => some none
    | _ :: rest =>
      match matchTagAt cs with
      | none => (skipEndLoop fuel s rest).map (Option.map (· + 1))
      | some m =>
        if m.isClose ∧ String.mk (m.nameChars.map Char.toLower) = s then
          some (some m.len)
        else (skipEndLoop fuel s (cs.drop m.len)).map (Option.map (· + m.len))

/-- Total view of `skipEndLoop`. -/
def skipEnd (s : String) (cs : List Char) : Option Nat :=
  (skipEndLoop (cs.length + 1) s cs).getD none

set_option maxRecDepth 100000

/-! General facts about the rule index. -/

theorem mapGet_append (m₁ m₂ : List (String × NestingRule)) (k : String) :
    mapGet (m₁ ++ m₂) k = Option.or (mapGet m₂ k) (mapGet m₁ k) := by
  induction m₁ with
  | nil => simp [mapGet, Option.or_none]
  | cons e rest ih =>
    cases h : mapGet m₂ k <;> simp_all [mapGet, Option.or]

theorem mapGet_isSome_of_mem {m : List (String × NestingRule)} {k : String}
    {v : NestingRule} (h : (k, v) ∈ m) : (mapGet m k).isSome := by
  induction m with
  | nil => cases h
  | cons e rest ih =>
    rcases List.mem_cons.mp h with he | hr
    · cases he
      cases hm : mapGet rest k <;> simp [mapGet, hm]
    · have := ih hr
      cases hm : mapGet rest k <;> simp_all [mapGet, hm]

/-! Structure of a successful tag-regex match. -/

theorem matchName_bound {r : List Char} {b : Bool} {m : TagMatch}
    (h : matchName r b = some m) : 1 ≤ m.len := by
  match r with
  | [] => exact Option.noConfusion h
  | c :: cs =>
    rw [matchName] at h
    by_cases hs : isTagStartChar c
    · rw [if_pos hs] at h
      cases hf : firstIdxOf '>' (cs.dropWhile isTagNameChar) with
      | none => rw [hf] at h; exact Option.noConfusion h
      | some d =>
        rw [hf] at h
        injection h with h
        subst h
        exact Nat.succ_le_succ (Nat.zero_le _)
    · rw [if_neg hs] at h
      exact Option.noConfusion h

theorem matchTagAt_bound {cs : List Char} {m : TagMatch}
    (h : matchTagAt cs = some m) : 1 ≤ m.len := by
  unfold matchTagAt at h
  split at h
  · unfold matchAfterLt at h
    split at h
    · cases h
    · split at h <;> exact matchName_bound h
  · cases h

/-! Fuel machinery for the tokenizer loop. -/

theorem tokenizeLoop_isSome :
    ∀ (fuel : Nat) (cs : List Char) (pos : Nat) (sk : Option String),
      cs.length < fuel → (tokenizeLoop fuel cs pos sk).isSome := by
  intro fuel
  induction fuel with
  | zero => intro cs pos sk h; omega
  | succ fuel ih =>
    intro cs pos sk h
    match cs with
    | [] => simp [tokenizeLoop]
    | c :: rest =>
      rw [tokenizeLoop]
      cases hm : matchTagAt (c :: rest) with
      | none =>
        simp only [hm]
        exact ih rest (pos + 1) sk (by simp only [List.length_cons] at h; omega)
      | some m =>
        have hb := matchTagAt_bound hm
        have hlen : ((c :: rest).drop m.len).length < fuel := by
          simp only [List.length_drop, List.length_cons] at h ⊢
          omega
        simp only [hm]
        cases sk with
        | some s =>
          show (if _ then tokenizeLoop fuel _ _ none else tokenizeLoop fuel _ _ (some s)).isSome = true
          split
          · exact ih _ _ _ hlen
          · exact ih _ _ _ hlen
        | none =>
          show (if _ then tokenizeLoop fuel _ _ _ else Option.map _ (tokenizeLoop fuel _ _ none)).isSome = true
          split
          · exact ih _ _ _ hlen
          · have := ih ((c :: rest).drop m.len) (pos + m.len) none hlen
            cases ho : tokenizeLoop fuel ((c :: rest).drop m.len) (pos + m.len) none with
            | none => rw [ho] at this; cases this
            | some ts => simp [ho]

theorem tokenizeLoop_congr :
    ∀ (f₁ f₂ : Nat) (cs : List Char) (pos : Nat) (sk : Option String),
      cs.length < f₁ → cs.length < f₂ →
      tokenizeLoop f₁ cs pos sk = tokenizeLoop f₂ cs pos sk := by
  intro f₁
  induction f₁ with
  | zero => intro f₂ cs pos sk h; omega
  | succ f₁ ih =>
    intro f₂ cs pos sk h₁ h₂
    match f₂ with
    | 0 => omega
    | f₂ + 1 =>
      match cs with
      | [] => rw [tokenizeLoop, tokenizeLoop]
      | c :: rest =>
        rw [tokenizeLoop, tokenizeLoop]
        cases hm : matchTagAt (c :: rest) with
        | none =>
          simp only [hm]
          exact ih f₂ rest (pos + 1) sk
            (by simp only [List.length_cons] at h₁; omega)
            (by simp only [List.length_cons] at h₂; omega)
        | some m =>
          have hb := matchTagAt_bound hm
          have hl₁ : ((c :: rest).drop m.len).length < f₁ := by
            simp only [List.length_drop, List.length_cons] at h₁ ⊢; omega
          have hl₂ : ((c :: rest).drop m.len).length < f₂ := by
            simp only [List.length_drop, List.length_cons] at h₂ ⊢; omega
          simp only [hm]
          cases sk with
          | some s =>
            show (if _ then tokenizeLoop f₁ _ _ none else tokenizeLoop f₁ _ _ (some s)) =
              (if _ then tokenizeLoop f₂ _ _ none else tokenizeLoop f₂ _ _ (some s))
            split
            · exact ih _ _ _ _ hl₁ hl₂
            · exact ih _ _ _ _ hl₁ hl₂
          | none =>
            show (if _ then tokenizeLoop f₁ _ _ _ else Option.map _ (tokenizeLoop f₁ _ _ none)) =
              (if _ then tokenizeLoop f₂ _ _ _ else Option.map _ (tokenizeLoop f₂ _ _ none))
            split
            · exact ih _ _ _ _ hl₁ hl₂
            · rw [ih _ _ _ _ hl₁ hl₂]

theorem tokenizeLoop_eq_from {fuel : Nat} {cs : List Char} (pos : Nat) (sk : Option String)
    (h : cs.length < fuel) :
    tokenizeLoop fuel cs pos sk = some (tokenizeFrom cs pos sk) := by
  have h2 : cs.length < cs.length + 1 := Nat.lt_succ_self _
  rw [tokenizeLoop_congr fuel (cs.length + 1) cs pos sk h h2]
  unfold tokenizeFrom
  cases hS : tokenizeLoop (cs.length + 1) cs pos sk with
  | none =>
    have := tokenizeLoop_isSome (cs.length + 1) cs pos sk h2
    rw [hS] at this
    cases this
  | some ts => rfl

theorem tokenizeFrom_nil (pos : Nat) (sk : Option String) :
    tokenizeFrom [] pos sk = [] := rfl

theorem tokenizeFrom_no_match {c : Char} {rest : List Char} (pos : Nat) (sk : Option String)
    (h : matchTagAt (c :: rest) = none) :
    tokenizeFrom (c :: rest) pos sk = tokenizeFrom rest (pos + 1) sk := by
  have : tokenizeLoop ((c :: rest).length + 1) (c :: rest) pos sk
      = tokenizeLoop (rest.length + 1) rest (pos + 1) sk := by
    rw [show (c :: rest).length + 1 = rest.length + 1 + 1 from by simp]
    rw [tokenizeLoop]
    rw [h]
  unfold tokenizeFrom
  rw [this]

/-- Shared entry step for the match-success lemmas: one unfolding of the
tokenizer loop at the canonical fuel. -/
theorem tokenizeFrom_cons_eq {c : Char} {rest : List Char} (pos : Nat) (sk : Option String) :
    tokenizeFrom (c :: rest) pos sk =
      (tokenizeLoop (rest.length + 1 + 1) (c :: rest) pos sk).getD [] := by
  unfold tokenizeFrom
  rw [show (c :: rest).length + 1 = rest.length + 1 + 1 from by simp]

/-- Drop-progress bound reused by the step lemmas. -/
theorem drop_len_lt {c : Char} {rest : List Char} {m : TagMatch}
    (h : matchTagAt (c :: rest) = some m) :
    ((c :: rest).drop m.len).length < rest.length + 1 := by
  have hb := matchTagAt_bound h
  simp only [List.length_drop, List.length_cons]
  omega

/-- Match step in skip state, when the match is the close tag being waited
for: the skip state ends, no token is emitted. -/
theorem tokenizeFrom_skip_exit {c : Char} {rest : List Char} {m : TagMatch} {s : String}
    (h : matchTagAt (c :: rest) = some m) (pos : Nat)
    (hc : m.isClose = true) (hn : String.mk (m.nameChars.map Char.toLower) = s) :
    tokenizeFrom (c :: rest) pos (some s) =
      tokenizeFrom ((c :: rest).drop m.len) (pos + m.len) none := by
  rw [tokenizeFrom_cons_eq, tokenizeLoop]
  simp only [h]
  rw [if_pos ⟨hc, hn⟩, tokenizeLoop_eq_from _ _ (drop_len_lt h)]
  rfl

/-- Match step in skip state, when the match is not the awaited close tag:
the tag is swallowed and the skip state persists. -/
theorem tokenizeFrom_skip_stay {c : Char} {rest : List Char} {m : TagMatch} {s : String}
    (h : matchTagAt (c :: rest) = some m) (pos : Nat)
    (hns : ¬(m.isClose = true ∧ String.mk (m.nameChars.map Char.toLower) = s)) :
    tokenizeFrom (c :: rest) pos (some s) =
      tokenizeFrom ((c :: rest).drop m.len) (pos + m.len) (some s) := by
  rw [tokenizeFrom_cons_eq, tokenizeLoop]
  simp only [h]
  rw [if_neg hns, tokenizeLoop_eq_from _ _ (drop_len_lt h)]
  rfl

/-- Match step outside skip state on a non-close raw-text tag: enter skip
state, emit nothing. -/
theorem tokenizeFrom_enter_skip {c : Char} {rest : List Char} {m : TagMatch}
    (h : matchTagAt (c :: rest) = some m) (pos : Nat)
    (hs : (!m.isClose && SKIP_CONTENT_TAGS.contains
        (String.mk (m.nameChars.map Char.toLower))) = true) :
    tokenizeFrom (c :: rest) pos none =
      tokenizeFrom ((c :: rest).drop m.len) (pos + m.len)
        (some (String.mk (m.nameChars.map Char.toLower))) := by
  rw [tokenizeFrom_cons_eq, tokenizeLoop]
  simp only [h]
  rw [if_pos hs, tokenizeLoop_eq_from _ _ (drop_len_lt h)]
  rfl

/-- Match step outside skip state on an ordinary tag: emit one token. -/
theorem tokenizeFrom_emit {c : Char} {rest : List Char} {m : TagMatch}
    (h : matchTagAt (c :: rest) = some m) (pos : Nat)
    (hs : (!m.isClose && SKIP_CONTENT_TAGS.contains
        (String.mk (m.nameChars.map Char.toLower))) = false) :
    tokenizeFrom (c :: rest) pos none =
      ⟨(if m.isClose then "close"
        else if m.selfClose ||
            VOID_ELEMENTS.contains (String.mk (m.nameChars.map Char.toLower)) then
          "self-closing"
        else "open"),
       String.mk (m.nameChars.map Char.toLower), pos, m.len⟩ ::
        tokenizeFrom ((c :: rest).drop m.len) (pos + m.len) none := by
  rw [tokenizeFrom_cons_eq, tokenizeLoop]
  simp only [h]
  rw [if_neg (by rw [hs]; exact Bool.false_ne_true), tokenizeLoop_eq_from _ _ (drop_len_lt h)]
  rfl

/-! List scanning helpers for symbolic tag matching. -/

theorem takeWhile_all_append {p : Char → Bool} {l : List Char} {b : Char} {t : List Char}
    (hl : ∀ x ∈ l, p x = true) (hb : p b = false) :
    (l ++ b :: t).takeWhile p = l := by
  induction l with
  | nil => exact List.takeWhile_cons_of_neg (by simp [hb])
  | cons x xs ih =>
    rw [List.cons_append, List.takeWhile_cons_of_pos (hl x (List.mem_cons_self x xs)),
      ih (fun y hy => hl y (List.mem_cons_of_mem x hy))]

theorem dropWhile_all_append {p : Char → Bool} {l : List Char} {b : Char} {t : List Char}
    (hl : ∀ x ∈ l, p x = true) (hb : p b = false) :
    (l ++ b :: t).dropWhile p = b :: t := by
  induction l with
  | nil => exact List.dropWhile_cons_of_neg (by simp [hb])
  | cons x xs ih =>
    rw [List.cons_append, List.dropWhile_cons_of_pos (hl x (List.mem_cons_self x xs))]
    exact ih (fun y hy => hl y (List.mem_cons_of_mem x hy))

theorem drop_open_tag (l t : List Char) :
    ('<' :: (l ++ '>' :: t)).drop (l.length + 2) = t := by
  have h : '<' :: (l ++ '>' :: t) = ('<' :: l ++ ['>']) ++ t := by simp
  rw [h, List.drop_left' (by simp)]

theorem drop_close_tag (l t : List Char) :
    ('<' :: '/' :: (l ++ '>' :: t)).drop (l.length + 3) = t := by
  have h : '<' :: '/' :: (l ++ '>' :: t) = ('<' :: '/' :: l ++ ['>']) ++ t := by simp
  rw [h, List.drop_left' (by simp)]

theorem drop_selfclose_tag (l t : List Char) :
    ('<' :: (l ++ '/' :: '>' :: t)).drop (l.length + 3) = t := by
  have h : '<' :: (l ++ '/' :: '>' :: t) = ('<' :: l ++ ['/', '>']) ++ t := by simp
  rw [h, List.drop_left' (by simp)]

/-! Structural facts derived from `isLowerTagName`. -/

theorem toLower_eq_self {c : Char} (h : c.toNat < 65 ∨ 90 < c.toNat) : c.toLower = c := by
  simp only [Char.toLower]
  rw [if_neg (by omega)]

theorem isLowerTagName_spec {s : String} (h : isLowerTagName s = true) :
    ∃ c cs, s.data = c :: cs ∧ isTagStartChar c = true ∧ c ≠ '/' ∧
      (∀ d ∈ cs, isTagNameChar d = true) ∧
      (c :: cs).map Char.toLower = c :: cs := by
  unfold isLowerTagName at h
  cases hd : s.data with
  | nil => rw [hd] at h; cases h
  | cons c cs =>
    rw [hd] at h
    simp only [Bool.and_eq_true, List.all_eq_true] at h
    obtain ⟨⟨hc1, hc2⟩, hall⟩ := h
    have hc1' : 97 ≤ c.toNat := of_decide_eq_true hc1
    have hc2' : c.toNat ≤ 122 := of_decide_eq_true hc2
    refine ⟨c, cs, rfl, ?_, ?_, ?_, ?_⟩
    · unfold isTagStartChar
      simp only [Bool.or_eq_true, Bool.and_eq_true, decide_eq_true_eq]
      omega
    · intro he
      subst he
      simp only [show ('/').toNat = 47 from rfl] at hc1'
      omega
    · intro d hd'
      have := hall d hd'
      unfold isTagNameChar isTagStartChar
      simp only [Bool.or_eq_true, Bool.and_eq_true, decide_eq_true_eq, beq_iff_eq] at this ⊢
      rcases this with (⟨h1, h2⟩ | ⟨h1, h2⟩) | hdash
      · exact Or.inl (Or.inl (Or.inr ⟨h1, h2⟩))
      · exact Or.inl (Or.inr ⟨h1, h2⟩)
      · exact Or.inr hdash
    · have hmap : ∀ l : List Char, (∀ d ∈ l, 97 ≤ d.toNat ∧ d.toNat ≤ 122 ∨
          48 ≤ d.toNat ∧ d.toNat ≤ 57 ∨ d = '-') → l.map Char.toLower = l := by
        intro l hl
        induction l with
        | nil => rfl
        | cons x xs ih =>
          have hx := hl x (List.mem_cons_self x xs)
          have : x.toLower = x := by
            apply toLower_eq_self
            rcases hx with ⟨h1, _⟩ | ⟨h1, h2⟩ | hdash
            · omega
            · omega
            · subst hdash; left; decide
          simp only [List.map_cons, this]
          rw [ih (fun y hy => hl y (List.mem_cons_of_mem x hy))]
      apply hmap
      intro d hd'
      rcases List.mem_cons.mp hd' with he | hm
      · subst he; left; exact ⟨hc1', hc2'⟩
      · have := hall d hm
        simp only [Bool.or_eq_true, Bool.and_eq_true, decide_eq_true_eq, beq_iff_eq] at this
        tauto

/-! Symbolic evaluation of `matchTagAt` on well-formed tags. -/

theorem matchTagAt_open_lemma {c : Char} {cs rest : List Char}
    (hc : isTagStartChar c = true) (hcs : ∀ d ∈ cs, isTagNameChar d = true) :
    matchTagAt ('<' :: c :: (cs ++ '>' :: rest)) =
      some ⟨c :: cs, false, false, (c :: cs).length + 2⟩ := by
  have hslash : ¬(c = '/') := by
    intro he; subst he; exact absurd hc (by decide)
  have hgt : isTagNameChar '>' = false := by decide
  show matchAfterLt (c :: (cs ++ '>' :: rest)) = _
  rw [matchAfterLt, if_neg hslash, matchName, if_pos hc,
    takeWhile_all_append hcs hgt, dropWhile_all_append hcs hgt]
  rw [show firstIdxOf '>' ('>' :: rest) = some 0 from by rw [firstIdxOf, if_pos rfl]]
  simp
  omega

theorem matchTagAt_close_lemma {c : Char} {cs rest : List Char}
    (hc : isTagStartChar c = true) (hcs : ∀ d ∈ cs, isTagNameChar d = true) :
    matchTagAt ('<' :: '/' :: c :: (cs ++ '>' :: rest)) =
      some ⟨c :: cs, true, false, (c :: cs).length + 3⟩ := by
  have hgt : isTagNameChar '>' = false := by decide
  show matchAfterLt ('/' :: c :: (cs ++ '>' :: rest)) = _
  rw [matchAfterLt, if_pos rfl, matchName, if_pos hc,
    takeWhile_all_append hcs hgt, dropWhile_all_append hcs hgt]
  rw [show firstIdxOf '>' ('>' :: rest) = some 0 from by rw [firstIdxOf, if_pos rfl]]
  simp
  omega

theorem matchTagAt_selfclose_lemma {c : Char} {cs rest : List Char}
    (hc : isTagStartChar c = true) (hcs : ∀ d ∈ cs, isTagNameChar d = true) :
    matchTagAt ('<' :: c :: (cs ++ '/' :: '>' :: rest)) =
      some ⟨c :: cs, false, true, (c :: cs).length + 3⟩ := by
  have hslash : ¬(c = '/') := by
    intro he; subst he; exact absurd hc (by decide)
  have hsl : isTagNameChar '/' = false := by decide
  show matchAfterLt (c :: (cs ++ '/' :: '>' :: rest)) = _
  rw [matchAfterLt, if_neg hslash, matchName, if_pos hc,
    takeWhile_all_append hcs hsl, dropWhile_all_append hcs hsl]
  rw [show firstIdxOf '>' ('/' :: '>' :: rest) = some 1 from by
    rw [firstIdxOf, if_neg (by decide), firstIdxOf, if_pos rfl]; rfl]
  simp
  omega

theorem drop_open_tag2 (c : Char) (cs t : List Char) :
    ('<' :: c :: (cs ++ '>' :: t)).drop ((c :: cs).length + 2) = t := by
  have h1 : ('<' :: c :: (cs ++ '>' :: t)) = ('<' :: c :: cs ++ ['>']) ++ t := by simp
  have h2 : (c :: cs).length + 2 = ('<' :: c :: cs ++ ['>']).length := by simp
  rw [h1, h2, List.drop_left]

theorem drop_close_tag2 (c : Char) (cs t : List Char) :
    ('<' :: '/' :: c :: (cs ++ '>' :: t)).drop ((c :: cs).length + 3) = t := by
  have h1 : ('<' :: '/' :: c :: (cs ++ '>' :: t)) = ('<' :: '/' :: c :: cs ++ ['>']) ++ t := by
    simp
  have h2 : (c :: cs).length + 3 = ('<' :: '/' :: c :: cs ++ ['>']).length := by simp
  rw [h1, h2, List.drop_left]

theorem drop_selfclose_tag2 (c : Char) (cs t : List Char) :
    ('<' :: c :: (cs ++ '/' :: '>' :: t)).drop ((c :: cs).length + 3) = t := by
  have h1 : ('<' :: c :: (cs ++ '/' :: '>' :: t)) = ('<' :: c :: cs ++ ['/', '>']) ++ t := by
    simp
  have h2 : (c :: cs).length + 3 = ('<' :: c :: cs ++ ['/', '>']).length := by simp
  rw [h1, h2, List.drop_left]

/-- Tokenizing `<name>` (an ordinary open tag, not raw-text, not void)
emits one "open" token and continues after the tag. -/
theorem tokenizeFrom_open_step {c : Char} {cs : List Char} (rest : List Char) (pos : Nat)
    (hstart : isTagStartChar c = true) (hall : ∀ d ∈ cs, isTagNameChar d = true)
    (hlow : (c :: cs).map Char.toLower = c :: cs)
    (hskip : SKIP_CONTENT_TAGS.contains (String.mk (c :: cs)) = false)
    (hvoid : VOID_ELEMENTS.contains (String.mk (c :: cs)) = false) :
    tokenizeFrom ('<' :: c :: (cs ++ '>' :: rest)) pos none =
      ⟨"open", String.mk (c :: cs), pos, (c :: cs).length + 2⟩ ::
        tokenizeFrom rest (pos + ((c :: cs).length + 2)) none := by
  rw [tokenizeFrom_emit (matchTagAt_open_lemma hstart hall) pos
    (by show (!(false : Bool) && SKIP_CONTENT_TAGS.contains
          (String.mk ((c :: cs).map Char.toLower))) = false
        rw [hlow]
        simpa using hskip)]
  simp only [hlow, hvoid, Bool.false_or, drop_open_tag2]
  simp

/-- Tokenizing `</name>` (outside skip state) emits one "close" token. -/
theorem tokenizeFrom_close_step {c : Char} {cs : List Char} (rest : List Char) (pos : Nat)
    (hstart : isTagStartChar c = true) (hall : ∀ d ∈ cs, isTagNameChar d = true)
    (hlow : (c :: cs).map Char.toLower = c :: cs) :
    tokenizeFrom ('<' :: '/' :: c :: (cs ++ '>' :: rest)) pos none =
      ⟨"close", String.mk (c :: cs), pos, (c :: cs).length + 3⟩ ::
        tokenizeFrom rest (pos + ((c :: cs).length + 3)) none := by
  rw [tokenizeFrom_emit (matchTagAt_close_lemma hstart hall) pos rfl]
  simp only [hlow, drop_close_tag2]
  simp

/-- Tokenizing the canonical violating document `<P><C></C></P>` yields
exactly the four expected tokens, for lowercase tag names that are neither
raw-text nor void elements. -/
theorem tokenizeTags_pair (P C : String)
    (hP : isLowerTagName P = true) (hC : isLowerTagName C = true)
    (hPs : SKIP_CONTENT_TAGS.contains P = false) (hCs : SKIP_CONTENT_TAGS.contains C = false)
    (hPv : VOID_ELEMENTS.contains P = false) (hCv : VOID_ELEMENTS.contains C = false) :
    tokenizeTags ("<" ++ P ++ "><" ++ C ++ "></" ++ C ++ "></" ++ P ++ ">") =
      [⟨"open", P, 0, P.length + 2⟩,
       ⟨"open", C, P.length + 2, C.length + 2⟩,
       ⟨"close", C, P.length + C.length + 4, C.length + 3⟩,
       ⟨"close", P, P.length + 2 * C.length + 7, P.length + 3⟩] := by
  obtain ⟨pc, pcs, hPd, hPstart, hPslash, hPall, hPlow⟩ := isLowerTagName_spec hP
  obtain ⟨cc, ccs, hCd, hCstart, hCslash, hCall, hClow⟩ := isLowerTagName_spec hC
  have hPmk : String.mk (pc :: pcs) = P := by rw [← hPd]
  have hCmk : String.mk (cc :: ccs) = C := by rw [← hCd]
  have hdoc : ("<" ++ P ++ "><" ++ C ++ "></" ++ C ++ "></" ++ P ++ ">").data
      = '<' :: pc :: (pcs ++ '>' ::
        ('<' :: cc :: (ccs ++ '>' ::
          ('<' :: '/' :: cc :: (ccs ++ '>' ::
            ('<' :: '/' :: pc :: (pcs ++ '>' :: []))))))) := by
    simp only [String.data_append, hPd, hCd,
      show ("<" : String).data = ['<'] from rfl,
      show ("><" : String).data = ['>', '<'] from rfl,
      show ("></" : String).data = ['>', '<', '/'] from rfl,
      show (">" : String).data = ['>'] from rfl]
    simp
  show tokenizeFrom ("<" ++ P ++ "><" ++ C ++ "></" ++ C ++ "></" ++ P ++ ">").data 0 none = _
  rw [hdoc]
  rw [tokenizeFrom_open_step _ 0 hPstart hPall hPlow (hPmk ▸ hPs) (hPmk ▸ hPv)]
  rw [tokenizeFrom_open_step _ _ hCstart hCall hClow (hCmk ▸ hCs) (hCmk ▸ hCv)]
  rw [tokenizeFrom_close_step _ _ hCstart hCall hClow]
  rw [tokenizeFrom_close_step _ _ hPstart hPall hPlow]
  rw [tokenizeFrom_nil]
  have hPlen : P.length = (pc :: pcs).length := by
    show P.data.length = _
    rw [hPd]
  have hClen : C.length = (cc :: ccs).length := by
    show C.data.length = _
    rw [hCd]
  simp only [hPmk, hCmk, hPlen, hClen, List.cons.injEq, Token.mk.injEq, and_true, true_and,
    List.length_cons, and_assoc]
  omega

/-- Emission over an empty stack: no parent, nothing to report. -/
theorem checkOpenEmission_nil (token : Token) : checkOpenEmission [] token = [] := rfl

/-- Emission lemma: with a non-empty stack and a rule stored for the pair,
the violation record is produced. -/
theorem checkOpenEmission_some (top : ParentFrame) (token : Token)
    (stack : List ParentFrame) (rule : NestingRule)
    (hres : mapGet RULES_MAP (top.name ++ "::" ++ token.name) = some rule) :
    checkOpenEmission (top :: stack) token =
      [⟨top.name, token.name, token.offset, token.length, rule⟩] := by
  show emitViolation top.name token (mapGet RULES_MAP (top.name ++ "::" ++ token.name)) = _
  rw [hres]
  rfl

/-- Emission lemma: with a non-empty stack but no rule stored for the pair,
nothing is emitted. -/
theorem checkOpenEmission_none (top : ParentFrame) (token : Token)
    (stack : List ParentFrame)
    (hres : mapGet RULES_MAP (top.name ++ "::" ++ token.name) = none) :
    checkOpenEmission (top :: stack) token = [] := by
  show emitViolation top.name token (mapGet RULES_MAP (top.name ++ "::" ++ token.name)) = _
  rw [hres]
  rfl

/-- Base case of the replay loop. -/
theorem aux_nil (stack : List ParentFrame) : findNestingErrorsAux [] stack = [] := rfl

/-- One checker step on a "close" token: no emission, pop to the nearest
matching frame. -/
theorem aux_close (nm : String) (off len : Nat) (ts : List Token)
    (stack : List ParentFrame) :
    findNestingErrorsAux (⟨"close", nm, off, len⟩ :: ts) stack =
      findNestingErrorsAux ts (closeStack nm stack) := rfl

/-- One checker step on a "self-closing" token: no emission, no stack
mutation. -/
theorem aux_selfclosing (nm : String) (off len : Nat) (ts : List Token)
    (stack : List ParentFrame) :
    findNestingErrorsAux (⟨"self-closing", nm, off, len⟩ :: ts) stack =
      findNestingErrorsAux ts stack := rfl

/-- One checker step on an "open" token. -/
theorem aux_open (nm : String) (off len : Nat) (ts : List Token)
    (stack : List ParentFrame) :
    findNestingErrorsAux (⟨"open", nm, off, len⟩ :: ts) stack =
      checkOpenEmission stack ⟨"open", nm, off, len⟩
        ++ findNestingErrorsAux ts (⟨nm, off⟩ :: stack) := rfl

/-- Replaying the four tokens of `<P><C></C></P>` against the empty stack
yields exactly one violation, carrying the rule found for key `P::C`. -/
theorem findNestingErrors_pair (P C : String) (r : NestingRule)
    (o1 o2 o3 o4 l1 l2 l3 l4 : Nat)
    (hget : mapGet RULES_MAP (P ++ "::" ++ C) = some r) :
    findNestingErrors
      [⟨"open", P, o1, l1⟩, ⟨"open", C, o2, l2⟩, ⟨"close", C, o3, l3⟩, ⟨"close", P, o4, l4⟩] =
      [⟨P, C, o2, l2, r⟩] := by
  unfold findNestingErrors
  rw [aux_open, aux_open, aux_close, aux_close,
    checkOpenEmission_some ⟨P, o1⟩ ⟨"open", C, o2, l2⟩ _ _ hget,
    checkOpenEmission_nil, aux_nil]
  simp

/-- Core lemma shared by the catalog claims: analysing the canonical
document `<P><C></C></P>` in the plain-markup dialect reports exactly the
violation (P, C) with the catalog's rule for that pair. -/
theorem analyzePair (P C : String) (r : NestingRule)
    (hP : isLowerTagName P = true) (hC : isLowerTagName C = true)
    (hPs : SKIP_CONTENT_TAGS.contains P = false) (hCs : SKIP_CONTENT_TAGS.contains C = false)
    (hPv : VOID_ELEMENTS.contains P = false) (hCv : VOID_ELEMENTS.contains C = false)
    (hget : mapGet RULES_MAP (P ++ "::" ++ C) = some r) :
    analyzeDocument ("<" ++ P ++ "><" ++ C ++ "></" ++ C ++ "></" ++ P ++ ">") "html" =
      [⟨P, C, P.length + 2, C.length + 2, r, P.length + 2⟩] := by
  unfold analyzeDocument
  rw [show extractMarkupRegions ("<" ++ P ++ "><" ++ C ++ "></" ++ C ++ "></" ++ P ++ ">") "html"
      = [⟨"<" ++ P ++ "><" ++ C ++ "></" ++ C ++ "></" ++ P ++ ">", 0⟩] from by
    unfold extractMarkupRegions
    rw [if_pos rfl]]
  unfold analyzeRegion
  simp only [List.map_cons, List.map_nil, List.flatten_cons, List.flatten_nil, List.append_nil]
  rw [tokenizeTags_pair P C hP hC hPs hCs hPv hCv]
  rw [findNestingErrors_pair P C r _ _ _ _ _ _ _ _ hget]
  simp

/-! Claim theorems. -/

/-- C4: analysing `<p><script>&lt;div&gt;</script></p>` and
`<p><style>div{}</style></p>` in the plain-markup dialect yields zero
violations; between the opening script/style tag and its matching close tag
the tokenizer emits no tokens (only the outer `<p>`/`</p>` tokens appear),
so nothing inside the raw-text span is checked against the parent stack. -/
theorem claim_C4 :
    analyzeDocument "<p><script>&lt;div&gt;</script></p>" "html" = []
    ∧ tokenizeTags "<p><script>&lt;div&gt;</script></p>" =
        [⟨"open", "p", 0, 3⟩, ⟨"close", "p", 31, 4⟩]
    ∧ analyzeDocument "<p><style>div\x7b\x7d</style></p>" "html" = []
    ∧ tokenizeTags "<p><style>div\x7b\x7d</style></p>" =
        [⟨"open", "p", 0, 3⟩, ⟨"close", "p", 23, 4⟩] := by
  refine ⟨by decide, by decide, by decide, by decide⟩

/-- C5: processing a close token named n: if some stack frame is named n,
the topmost such frame and every frame above it are removed and the frames
below are unchanged; if no frame is named n the stack is unchanged; in both
cases the close step records no violation and raises no error (it only
replaces the stack by `closeStack`). -/
theorem claim_C5 :
    (∀ (n : String) (s₁ s₂ : List ParentFrame) (f : ParentFrame),
        (∀ g ∈ s₁, g.name ≠ n) → f.name = n →
        closeStack n (s₁ ++ f :: s₂) = s₂)
    ∧ (∀ (n : String) (stack : List ParentFrame),
        (∀ g ∈ stack, g.name ≠ n) → closeStack n stack = stack)
    ∧ (∀ (t : Token) (ts : List Token) (stack : List ParentFrame),
        t.type = "close" →
        findNestingErrorsAux (t :: ts) stack =
          findNestingErrorsAux ts (closeStack t.name stack)) := by
  refine ⟨?_, ?_, ?_⟩
  · intro n s₁ s₂ f h1 hf
    have hpop : ∀ s₁ : List ParentFrame, (∀ g ∈ s₁, g.name ≠ n) →
        popToMatch n (s₁ ++ f :: s₂) = some s₂ := by
      intro s₁
      induction s₁ with
      | nil => intro _; simp [popToMatch, hf]
      | cons g rest ih =>
        intro hall
        rw [List.cons_append, popToMatch,
          if_neg (hall g (List.mem_cons_self g rest))]
        exact ih (fun y hy => hall y (List.mem_cons_of_mem g hy))
    unfold closeStack
    rw [hpop s₁ h1]
    rfl
  · intro n stack h1
    have hpop : ∀ stack : List ParentFrame, (∀ g ∈ stack, g.name ≠ n) →
        popToMatch n stack = none := by
      intro stack
      induction stack with
      | nil => intro _; rfl
      | cons g rest ih =>
        intro hall
        rw [popToMatch, if_neg (hall g (List.mem_cons_self g rest))]
        exact ih (fun y hy => hall y (List.mem_cons_of_mem g hy))
    unfold closeStack
    rw [hpop stack h1]
    rfl
  · intro t ts stack h
    obtain ⟨ty, nm, off, len⟩ := t
    cases h
    exact aux_close nm off len ts stack

/-- Witness for C5 at concrete inputs. -/
theorem claim_C5_witness :
    closeStack "div" [⟨"span", 5⟩, ⟨"div", 0⟩, ⟨"p", 9⟩] = [⟨"p", 9⟩]
    ∧ closeStack "em" [⟨"span", 5⟩, ⟨"div", 0⟩] = [⟨"span", 5⟩, ⟨"div", 0⟩]
    ∧ findNestingErrorsAux [⟨"close", "div", 3, 6⟩] [⟨"div", 0⟩] =
        findNestingErrorsAux [] (closeStack "div" [⟨"div", 0⟩]) :=
  ⟨claim_C5.1 "div" [⟨"span", 5⟩] [⟨"p", 9⟩] ⟨"div", 0⟩ (by decide) rfl,
   claim_C5.2.1 "em" [⟨"span", 5⟩, ⟨"div", 0⟩] (by decide),
   claim_C5.2.2 ⟨"close", "div", 3, 6⟩ [] [⟨"div", 0⟩] rfl⟩

/-- C6: a self-closing token leaves the stack unchanged and never appends a
violation, even though the rule index does hold a rule for the pair
(select, input); in particular `<select><input/></select>` produces zero
violations. -/
theorem claim_C6 :
    (∀ (t : Token) (ts : List Token) (stack : List ParentFrame),
        t.type = "self-closing" →
        findNestingErrorsAux (t :: ts) stack = findNestingErrorsAux ts stack)
    ∧ (mapGet RULES_MAP "select::input").isSome = true
    ∧ analyzeDocument "<select><input/></select>" "html" = [] := by
  refine ⟨?_, ?_, by decide⟩
  · intro t ts stack h
    obtain ⟨ty, nm, off, len⟩ := t
    cases h
    exact aux_selfclosing nm off len ts stack
  · apply mapGet_isSome_of_mem
      (v := makeRule "select" "input"
        "<select> solo admite <option> y <optgroup> como contenido principal."
        ["Reemplaza este elemento por <option> u <optgroup>."] DEFAULT_REFS)
    simp only [RULES_MAP, buildRulesMap, NESTING_RULES_COMPLETE, GENERATED_NESTING_RULES,
      generateAutomaticRules, keepCatalog]
    apply List.mem_map.mpr
    refine ⟨makeRule "select" "input"
        "<select> solo admite <option> y <optgroup> como contenido principal."
        ["Reemplaza este elemento por <option> u <optgroup>."] DEFAULT_REFS,
      List.mem_append_right _ (List.mem_filter.mpr ⟨?_, by decide⟩), by decide⟩
    refine List.mem_append_left _ ?_
    refine List.mem_append_left _ ?_
    refine List.mem_append_left _ ?_
    refine List.mem_append_left _ ?_
    refine List.mem_append_left _ ?_
    refine List.mem_append_left _ ?_
    refine List.mem_append_left _ ?_
    refine List.mem_append_right _ ?_
    show _ ∈ autoGroupSelect
    simp only [autoGroupSelect, generateRulesForAllowedChildren]
    exact List.mem_map.mpr ⟨"input", by decide, rfl⟩

/-- Witness for C6 at a concrete self-closing token over a select parent. -/
theorem claim_C6_witness :
    findNestingErrorsAux [⟨"self-closing", "input", 8, 8⟩] [⟨"select", 0⟩] =
      findNestingErrorsAux [] [⟨"select", 0⟩] :=
  claim_C6.1 ⟨"self-closing", "input", 8, 8⟩ [] [⟨"select", 0⟩] rfl

/-- C9: every rule of the merged list NESTING_RULES_COMPLETE (and hence the
rule stored at every key of RULES_MAP) has parent and child in the standard
catalog ALL_HTML_TAGS: generated rules are filtered against the catalog and
every explicit rule's tags are already catalog members. -/
theorem claim_C9 :
    (∀ r ∈ NESTING_RULES_COMPLETE, r.parent ∈ ALL_HTML_TAGS ∧ r.child ∈ ALL_HTML_TAGS)
    ∧ (∀ kv ∈ RULES_MAP, kv.2.parent ∈ ALL_HTML_TAGS ∧ kv.2.child ∈ ALL_HTML_TAGS) := by
  have main : ∀ r ∈ NESTING_RULES_COMPLETE,
      r.parent ∈ ALL_HTML_TAGS ∧ r.child ∈ ALL_HTML_TAGS := by
    intro r hr
    rcases List.mem_append.mp hr with hex | hgen
    · exact (by decide :
        ∀ r ∈ NESTING_RULES, r.parent ∈ ALL_HTML_TAGS ∧ r.child ∈ ALL_HTML_TAGS) r hex
    · unfold GENERATED_NESTING_RULES generateAutomaticRules keepCatalog at hgen
      have hp := List.of_mem_filter hgen
      rw [Bool.and_eq_true] at hp
      exact ⟨List.elem_iff.mp hp.1, List.elem_iff.mp hp.2⟩
  refine ⟨main, ?_⟩
  intro kv hkv
  unfold RULES_MAP buildRulesMap at hkv
  obtain ⟨r, hr, heq⟩ := List.mem_map.mp hkv
  cases heq
  exact main r hr

/-- Witness for C9 at the first explicit rule. -/
theorem claim_C9_witness :
    ({ parent := "p", child := "div",
       reason := "<p> solo puede contener phrasing content (texto e inline). <div> es un bloque y cierra implícitamente el <p>.",
       alternatives := ["Usa <div> en lugar de <p> si necesitas contener bloques.", "Mueve el <div> fuera del <p>.", "Si quieres un párrafo con un wrapper, usa <section> o <article>."],
       references := [⟨"MDN: <p>", "https://developer.mozilla.org/es/docs/Web/HTML/Element/p"⟩,
                      ⟨"HTML Spec: phrasing content", "https://html.spec.whatwg.org/multipage/dom.html#phrasing-content"⟩] } : NestingRule).parent ∈ ALL_HTML_TAGS := by
  have h := claim_C9.1
    { parent := "p", child := "div",
      reason := "<p> solo puede contener phrasing content (texto e inline). <div> es un bloque y cierra implícitamente el <p>.",
      alternatives := ["Usa <div> en lugar de <p> si necesitas contener bloques.", "Mueve el <div> fuera del <p>.", "Si quieres un párrafo con un wrapper, usa <section> o <article>."],
      references := [⟨"MDN: <p>", "https://developer.mozilla.org/es/docs/Web/HTML/Element/p"⟩,
                     ⟨"HTML Spec: phrasing content", "https://html.spec.whatwg.org/multipage/dom.html#phrasing-content"⟩] }
    (List.mem_append_left _ (List.mem_cons_self _ _))
  exact h.1

/-- C2 (amended): for every rule (P, C) present in the catalog RULES_MAP —
all catalog keys are lowercase tag names — whose child C is neither a void
element nor a raw-text skip tag, and whose parent P is likewise neither (no
catalog rule has a void or raw-text parent), analysing `<P><C></C></P>` in
the plain-markup dialect returns exactly one violation, with parent P,
child C and the catalog's rule for (P, C). -/
theorem claim_C2_amended (P C : String) (r : NestingRule)
    (hP : isLowerTagName P = true) (hC : isLowerTagName C = true)
    (hPs : SKIP_CONTENT_TAGS.contains P = false) (hCs : SKIP_CONTENT_TAGS.contains C = false)
    (hPv : VOID_ELEMENTS.contains P = false) (hCv : VOID_ELEMENTS.contains C = false)
    (hget : mapGet RULES_MAP (P ++ "::" ++ C) = some r) :
    analyzeDocument ("<" ++ P ++ "><" ++ C ++ "></" ++ C ++ "></" ++ P ++ ">") "html" =
      [⟨P, C, P.length + 2, C.length + 2, r, P.length + 2⟩] :=
  analyzePair P C r hP hC hPs hCs hPv hCv hget

/-- Counterexample to C2 as stated: the catalog does contain a rule for the
pair (h6, style) — style is a raw-text skip tag — yet analysing
`<h6><style></style></h6>` yields zero violations instead of exactly one. -/
theorem claim_C2_counterexample :
    (mapGet RULES_MAP "h6::style").isSome = true
    ∧ analyzeDocument "<h6><style></style></h6>" "html" = [] := by
  constructor
  · simp only [RULES_MAP, NESTING_RULES_COMPLETE, GENERATED_NESTING_RULES,
      generateAutomaticRules, keepCatalog, List.filter_append, buildRulesMap,
      List.map_append, List.map_cons, List.map_nil, List.flatten_cons, List.flatten_nil,
      List.append_nil, List.append_assoc, mapGet_append, PHRASING_ONLY_PARENTS]
    decide
  · decide

/-- Witness for C2 (amended) at the pair (label, label), whose stored rule
is the generated nested-label rule. -/
theorem claim_C2_amended_witness :
    (isLowerTagName "label" = true)
    ∧ (SKIP_CONTENT_TAGS.contains "label" = false)
    ∧ (VOID_ELEMENTS.contains "label" = false)
    ∧ (mapGet RULES_MAP ("label" ++ "::" ++ "label") =
        some (makeRule "label" "label" "No puedes anidar un <label> dentro de otro <label>."
          ["Usa etiquetas separadas para cada control de formulario."] DEFAULT_REFS))
    ∧ analyzeDocument ("<" ++ "label" ++ "><" ++ "label" ++ "></" ++ "label" ++ "></" ++ "label" ++ ">") "html" =
        [⟨"label", "label", "label".length + 2, "label".length + 2,
          makeRule "label" "label" "No puedes anidar un <label> dentro de otro <label>."
            ["Usa etiquetas separadas para cada control de formulario."] DEFAULT_REFS,
          "label".length + 2⟩] := by
  refine ⟨by decide, by decide, by decide, ?_, ?_⟩
  · simp only [RULES_MAP, NESTING_RULES_COMPLETE, GENERATED_NESTING_RULES,
      generateAutomaticRules, keepCatalog, List.filter_append, buildRulesMap,
      List.map_append, List.map_cons, List.map_nil, List.flatten_cons, List.flatten_nil,
      List.append_nil, List.append_assoc, mapGet_append, PHRASING_ONLY_PARENTS]
    decide
  · refine claim_C2_amended "label" "label" _ (by decide) (by decide) (by decide) (by decide)
      (by decide) (by decide) ?_
    simp only [RULES_MAP, NESTING_RULES_COMPLETE, GENERATED_NESTING_RULES,
      generateAutomaticRules, keepCatalog, List.filter_append, buildRulesMap,
      List.map_append, List.map_cons, List.map_nil, List.flatten_cons, List.flatten_nil,
      List.append_nil, List.append_assoc, mapGet_append, PHRASING_ONLY_PARENTS]
    decide

/-- C1: the rule stored in RULES_MAP for the doubly-covered pair
(form, form) — and hence the rule carried by the violation that
analyzeDocument reports for `<form><form></form></form>` — is the
auto-generated rule, whose alternatives are the generic generated text, NOT
the explicit hand-curated rule (which is in NESTING_RULES with its three
specific alternatives): `buildRulesMap` inserts explicit rules first and
generated rules second, and the later `Map.set` wins. -/
theorem claim_C1_generated_rule_wins :
    ({ parent := "form", child := "form",
       reason := "No puedes anidar un <form> dentro de otro <form>.",
       alternatives := ["Usa un solo formulario con fieldsets para agrupar.", "Usa JavaScript para manejar múltiples sets de datos.", "Usa <dialog> para formularios secundarios."],
       references := [⟨"MDN: <form>", "https://developer.mozilla.org/es/docs/Web/HTML/Element/form"⟩,
                      ⟨"HTML Spec: form", "https://html.spec.whatwg.org/multipage/form-elements.html#the-form-element"⟩] } : NestingRule)
      ∈ NESTING_RULES
    ∧ mapGet RULES_MAP "form::form" =
        some (makeRule "form" "form" "No puedes anidar un <form> dentro de otro <form>."
          ["Usa un único formulario y agrupa secciones con <fieldset>."] DEFAULT_REFS)
    ∧ analyzeDocument "<form><form></form></form>" "html" =
        [⟨"form", "form", 6, 6,
          makeRule "form" "form" "No puedes anidar un <form> dentro de otro <form>."
            ["Usa un único formulario y agrupa secciones con <fieldset>."] DEFAULT_REFS, 6⟩]
    ∧ (["Usa un único formulario y agrupa secciones con <fieldset>."] ≠
        ["Usa un solo formulario con fieldsets para agrupar.", "Usa JavaScript para manejar múltiples sets de datos.", "Usa <dialog> para formularios secundarios."]) := by
  have hget : mapGet RULES_MAP ("form" ++ "::" ++ "form") =
      some (makeRule "form" "form" "No puedes anidar un <form> dentro de otro <form>."
        ["Usa un único formulario y agrupa secciones con <fieldset>."] DEFAULT_REFS) := by
    simp only [RULES_MAP, NESTING_RULES_COMPLETE, GENERATED_NESTING_RULES,
      generateAutomaticRules, keepCatalog, List.filter_append, buildRulesMap,
      List.map_append, List.map_cons, List.map_nil, List.flatten_cons, List.flatten_nil,
      List.append_nil, List.append_assoc, mapGet_append, PHRASING_ONLY_PARENTS]
    decide
  refine ⟨by decide, hget, ?_, by decide⟩
  exact analyzePair "form" "form" _ (by decide) (by decide) (by decide) (by decide)
    (by decide) (by decide) hget

/-! Termination of the region-extraction scan. -/

theorem matchReturnHere_bound {prev : Option Char} {cs : List Char} {len : Nat}
    (h : matchReturnHere prev cs = some len) : 7 ≤ len := by
  unfold matchReturnHere at h
  split at h
  · exact Option.noConfusion h
  · split at h
    · split at h
      · injection h with h
        omega
      · exact Option.noConfusion h
    · exact Option.noConfusion h

theorem matchReturnHere_fits {prev : Option Char} {cs : List Char} {len : Nat}
    (h : matchReturnHere prev cs = some len) : len ≤ cs.length := by
  unfold matchReturnHere at h
  split at h
  · exact Option.noConfusion h
  · split at h
    · rename_i rest
      split at h
      · rename_i rest2 heq
        injection h with h
        have h1 : (rest.takeWhile isJsSpace).length + (rest.dropWhile isJsSpace).length
            = rest.length := by
          rw [← List.length_append, List.takeWhile_append_dropWhile]
        have h2 : (rest2.takeWhile isJsSpace).length ≤ rest2.length :=
          (List.takeWhile_sublist _).length_le
        rw [heq] at h1
        simp only [List.length_cons] at h1 ⊢
        omega
      · exact Option.noConfusion h
    · exact Option.noConfusion h

theorem findReturn_bound {prev : Option Char} {cs : List Char} {idx : Nat}
    {a b : Nat} (h : findReturn prev cs idx = some (a, b)) :
    idx ≤ a ∧ 7 ≤ b ∧ a + b ≤ idx + cs.length := by
  induction cs generalizing prev idx with
  | nil => exact Option.noConfusion h
  | cons c rest ih =>
    rw [findReturn] at h
    cases hm : matchReturnHere prev (c :: rest) with
    | some len =>
      rw [hm] at h
      injection h with h
      injection h with h1 h2
      subst h1
      subst h2
      have hfits := matchReturnHere_fits hm
      exact ⟨Nat.le_refl _, matchReturnHere_bound hm, by omega⟩
    | none =>
      rw [hm] at h
      have := ih h
      simp only [List.length_cons]
      omega

theorem jsxLoop_isSome :
    ∀ (fuel : Nat) (full : List Char) (idx : Nat),
      full.length - idx < fuel → (jsxLoop fuel full idx).isSome := by
  intro fuel
  induction fuel with
  | zero => intro full idx h; omega
  | succ fuel ih =>
    intro full idx h
    cases hm : findReturn (if idx = 0 then none else full[idx - 1]?) (full.drop idx) idx with
    | none => simp [jsxLoop, hm]
    | some r =>
      obtain ⟨mIdx, mLen⟩ := r
      obtain ⟨hb1, hb2, hb3⟩ := findReturn_bound hm
      have hlt : full.length - (mIdx + mLen) < fuel := by
        simp only [List.length_drop] at hb3
        omega
      cases ho : idxOfFrom full '<' (mIdx + mLen) with
      | none => simpa [jsxLoop, hm, ho] using ih full (mIdx + mLen) hlt
      | some ltIdx =>
        have := ih full (mIdx + mLen) hlt
        cases hj : jsxLoop fuel full (mIdx + mLen) with
        | none => rw [hj] at this; cases this
        | some rs => simp [jsxLoop, hm, ho, hj]

theorem extractJsxRegionsF_eq (content : String) :
    extractJsxRegionsF content = some (extractJsxRegions content) := by
  unfold extractJsxRegions extractJsxRegionsF
  have h := jsxLoop_isSome (content.data.length + 1) content.data 0 (by omega)
  cases hj : jsxLoop (content.data.length + 1) content.data 0 with
  | none => rw [hj] at h; cases h
  | some rs => rfl

theorem tokenizeTagsF_eq (text : String) :
    tokenizeTagsF text = some (tokenizeTags text) := by
  unfold tokenizeTagsF tokenizeTags tokenizeFrom
  have h := tokenizeLoop_isSome (text.data.length + 1) text.data 0 none (by omega)
  cases ht : tokenizeLoop (text.data.length + 1) text.data 0 none with
  | none => rw [ht] at h; cases h
  | some ts => rfl

theorem extractMarkupRegionsF_eq (content : String) (languageId : String) :
    extractMarkupRegionsF content languageId =
      some (extractMarkupRegions content languageId) := by
  unfold extractMarkupRegionsF extractMarkupRegions
  split_ifs
  · rfl
  · exact extractJsxRegionsF_eq content
  · rfl
  · rfl
  · rfl

theorem analyzeRegionF_eq (region : MarkupRegion) :
    analyzeRegionF region = some (analyzeRegion region) := by
  unfold analyzeRegionF analyzeRegion
  rw [tokenizeTagsF_eq]
  rfl

theorem mapM_loop_option {α β : Type} (f : α → Option β) (g : α → β)
    (hf : ∀ a, f a = some (g a)) :
    ∀ (l : List α) (acc : List β),
      List.mapM.loop f l acc = some (acc.reverse ++ l.map g) := by
  intro l
  induction l with
  | nil => intro acc; simp [List.mapM.loop]
  | cons a rest ih =>
    intro acc
    rw [List.mapM.loop, hf]
    simp only [Option.bind_eq_bind, Option.some_bind, ih]
    simp

theorem mapM_option_some {α β : Type} (f : α → Option β) (g : α → β)
    (hf : ∀ a, f a = some (g a)) :
    ∀ l : List α, l.mapM f = some (l.map g) := by
  intro l
  show List.mapM.loop f l [] = _
  rw [mapM_loop_option f g hf]
  rfl

/-- C3: for every input text and every dialect, the fueled analysis scan
completes (fuel exhaustion `none` is unreachable, because every `exec` loop
strictly advances through the text) and returns the violation list of the
total `analyzeDocument`; there is no fatal path and no thrown exception —
any input, including malformed or unbalanced markup, produces a defined,
possibly empty, list. -/
theorem claim_C3 (content : String) (languageId : String) :
    analyzeDocumentF content languageId = some (analyzeDocument content languageId) := by
  unfold analyzeDocumentF analyzeDocument
  rw [extractMarkupRegionsF_eq]
  show (some (extractMarkupRegions content languageId)).bind _ = _
  rw [Option.some_bind]
  rw [mapM_option_some analyzeRegionF analyzeRegion analyzeRegionF_eq]
  rfl

/-- When the very first `return (` search fails, the JSX loop exits at once
with no region collected. -/
theorem jsxLoop_start_none {fuel : Nat} {full : List Char}
    (h : findReturn none full 0 = none) : jsxLoop (fuel + 1) full 0 = some [] := by
  rw [jsxLoop]
  simp [h]

/-- C8: for the component-syntax dialects (javascriptreact / typescriptreact),
a text with no `return (` pattern anywhere yields the single whole-text region
with base offset 0; the same single whole-text region is produced for any
dialect outside the recognised switch cases. -/
theorem claim_C8 (content : String) (languageId : String) :
    ((languageId = "javascriptreact" ∨ languageId = "typescriptreact") →
      findReturn none content.data 0 = none →
      extractMarkupRegions content languageId = [⟨content, 0⟩]) ∧
    (languageId ∉ (["html", "javascriptreact", "typescriptreact",
        "vue", "svelte", "html-angular"] : List String) →
      extractMarkupRegions content languageId = [⟨content, 0⟩]) := by
  constructor
  · intro hlang hnone
    have hne : ¬ languageId = "html" := by
      rcases hlang with h | h <;> subst h <;> decide
    unfold extractMarkupRegions
    rw [if_neg hne, if_pos hlang]
    unfold extractJsxRegions extractJsxRegionsF
    rw [jsxLoop_start_none hnone]
    rfl
  · intro hnot
    simp only [List.mem_cons, List.not_mem_nil, or_false, not_or] at hnot
    obtain ⟨h1, h2, h3, h4, h5, h6⟩ := hnot
    unfold extractMarkupRegions
    rw [if_neg h1, if_neg (by tauto), if_neg (by tauto), if_neg h6]

theorem claim_C8_witness :
    extractMarkupRegions "<div></div>" "javascriptreact" = [⟨"<div></div>", 0⟩] ∧
    extractMarkupRegions "<div></div>" "python" = [⟨"<div></div>", 0⟩] :=
  ⟨(claim_C8 "<div></div>" "javascriptreact").1 (Or.inl rfl) (by decide),
   (claim_C8 "<div></div>" "python").2 (by decide)⟩

/-! Raw-text skip machinery: `skipEndLoop` mirrors the fuel discipline of
`tokenizeLoop`. -/

theorem skipEndLoop_isSome :
    ∀ (fuel : Nat) (s : String) (cs : List Char),
      cs.length < fuel → (skipEndLoop fuel s cs).isSome := by
  intro fuel
  induction fuel with
  | zero => intro s cs h; omega
  | succ fuel ih =>
    intro s cs h
    match cs with
    | [] => simp [skipEndLoop]
    | c :: rest =>
      rw [skipEndLoop]
      cases hm : matchTagAt (c :: rest) with
      | none =>
        simp only [hm]
        have := ih s rest (by simp only [List.length_cons] at h; omega)
        cases ho : skipEndLoop fuel s rest with
        | none => rw [ho] at this; cases this
        | some o => simp [ho]
      | some m =>
        have hb := matchTagAt_bound hm
        have hlen : ((c :: rest).drop m.len).length < fuel := by
          simp only [List.length_drop, List.length_cons] at h ⊢
          omega
        simp only [hm]
        show (if _ then some (some m.len)
          else Option.map _ (skipEndLoop fuel s ((c :: rest).drop m.len))).isSome = true
        split
        · rfl
        · have := ih s ((c :: rest).drop m.len) hlen
          cases ho : skipEndLoop fuel s ((c :: rest).drop m.len) with
          | none => rw [ho] at this; cases this
          | some o => simp [ho]

theorem skipEndLoop_congr :
    ∀ (f₁ f₂ : Nat) (s : String) (cs : List Char),
      cs.length < f₁ → cs.length < f₂ →
      skipEndLoop f₁ s cs = skipEndLoop f₂ s cs := by
  intro f₁
  induction f₁ with
  | zero => intro f₂ s cs h; omega
  | succ f₁ ih =>
    intro f₂ s cs h₁ h₂
    match f₂ with
    | 0 => omega
    | f₂ + 1 =>
      match cs with
      | [] => rw [skipEndLoop, skipEndLoop]
      | c :: rest =>
        rw [skipEndLoop, skipEndLoop]
        cases hm : matchTagAt (c :: rest) with
        | none =>
          simp only [hm]
          rw [ih f₂ s rest
            (by simp only [List.length_cons] at h₁; omega)
            (by simp only [List.length_cons] at h₂; omega)]
        | some m =>
          have hb := matchTagAt_bound hm
          have hl₁ : ((c :: rest).drop m.len).length < f₁ := by
            simp only [List.length_drop, List.length_cons] at h₁ ⊢; omega
          have hl₂ : ((c :: rest).drop m.len).length < f₂ := by
            simp only [List.length_drop, List.length_cons] at h₂ ⊢; omega
          simp only [hm]
          show (if _ then _ else Option.map _ (skipEndLoop f₁ s _)) =
            (if _ then _ else Option.map _ (skipEndLoop f₂ s _))
          split
          · rfl
          · rw [ih f₂ s _ hl₁ hl₂]

theorem skipEndLoop_eq_from {fuel : Nat} (s : String) {cs : List Char}
    (h : cs.length < fuel) :
    skipEndLoop fuel s cs = some (skipEnd s cs) := by
  have h2 : cs.length < cs.length + 1 := Nat.lt_succ_self _
  rw [skipEndLoop_congr fuel (cs.length + 1) s cs h h2]
  unfold skipEnd
  cases hS : skipEndLoop (cs.length + 1) s cs with
  | none =>
    have := skipEndLoop_isSome (cs.length + 1) s cs h2
    rw [hS] at this
    cases this
  | some o => rfl

theorem skipEnd_nil (s : String) : skipEnd s [] = none := rfl

theorem skipEnd_no_match {c : Char} {rest : List Char} (s : String)
    (h : matchTagAt (c :: rest) = none) :
    skipEnd s (c :: rest) = (skipEnd s rest).map (· + 1) := by
  have step : skipEndLoop ((c :: rest).length + 1) s (c :: rest)
      = (skipEndLoop (rest.length + 1) s rest).map (Option.map (· + 1)) := by
    rw [show (c :: rest).length + 1 = rest.length + 1 + 1 from by simp]
    rw [skipEndLoop]
    simp only [h]
  unfold skipEnd
  rw [step]
  cases hS : skipEndLoop (rest.length + 1) s rest with
  | none =>
    have := skipEndLoop_isSome (rest.length + 1) s rest (Nat.lt_succ_self _)
    rw [hS] at this
    cases this
  | some o => cases o <;> rfl

theorem skipEnd_hit {c : Char} {rest : List Char} {m : TagMatch} (s : String)
    (h : matchTagAt (c :: rest) = some m)
    (hc : m.isClose = true) (hn : String.mk (m.nameChars.map Char.toLower) = s) :
    skipEnd s (c :: rest) = some m.len := by
  unfold skipEnd
  rw [show (c :: rest).length + 1 = rest.length + 1 + 1 from by simp, skipEndLoop]
  simp only [h]
  rw [if_pos ⟨hc, hn⟩]
  rfl

theorem skipEnd_miss {c : Char} {rest : List Char} {m : TagMatch} (s : String)
    (h : matchTagAt (c :: rest) = some m)
    (hns : ¬(m.isClose = true ∧ String.mk (m.nameChars.map Char.toLower) = s)) :
    skipEnd s (c :: rest) = (skipEnd s ((c :: rest).drop m.len)).map (· + m.len) := by
  have step : skipEndLoop ((c :: rest).length + 1) s (c :: rest)
      = (some (skipEnd s ((c :: rest).drop m.len))).map (Option.map (· + m.len)) := by
    rw [show (c :: rest).length + 1 = rest.length + 1 + 1 from by simp, skipEndLoop]
    simp only [h]
    rw [if_neg hns, skipEndLoop_eq_from s (drop_len_lt h)]
  unfold skipEnd
  rw [step, skipEndLoop_eq_from s (Nat.lt_succ_self _)]
  cases skipEnd s ((c :: rest).drop m.len) <;> rfl

/-- Resumption of the tokenizer out of skip state: the suppressed span is
exactly what `skipEnd` measures — if no matching close tag is ever found the
remaining text yields no tokens at all, and otherwise tokenization resumes
just after the matching close tag with the skip state cleared. -/
theorem tokenizeFrom_skip_resume (s : String) :
    ∀ (cs : List Char) (pos : Nat),
      (skipEnd s cs = none → tokenizeFrom cs pos (some s) = []) ∧
      (∀ n, skipEnd s cs = some n →
        tokenizeFrom cs pos (some s) = tokenizeFrom (cs.drop n) (pos + n) none) := by
  have main : ∀ (k : Nat) (cs : List Char), cs.length < k → ∀ (pos : Nat),
      (skipEnd s cs = none → tokenizeFrom cs pos (some s) = []) ∧
      (∀ n, skipEnd s cs = some n →
        tokenizeFrom cs pos (some s) = tokenizeFrom (cs.drop n) (pos + n) none) := by
    intro k
    induction k with
    | zero => intro cs h; omega
    | succ k ih =>
      intro cs hlen pos
      match cs with
      | [] =>
        refine ⟨fun _ => rfl, fun n hn => ?_⟩
        rw [skipEnd_nil] at hn
        cases hn
      | c :: rest =>
        cases hm : matchTagAt (c :: rest) with
        | none =>
          rw [skipEnd_no_match s hm, tokenizeFrom_no_match pos (some s) hm]
          have hrl : rest.length < k := by
            simp only [List.length_cons] at hlen; omega
          constructor
          · intro hne
            have hnone : skipEnd s rest = none := by
              cases hS : skipEnd s rest with
              | none => rfl
              | some o => rw [hS] at hne; cases hne
            exact (ih rest hrl (pos + 1)).1 hnone
          · intro n hn
            cases hS : skipEnd s rest with
            | none => rw [hS] at hn; cases hn
            | some k' =>
              rw [hS] at hn
              injection hn with hn
              rw [(ih rest hrl (pos + 1)).2 k' hS, ← hn, List.drop_succ_cons,
                show pos + (k' + 1) = pos + 1 + k' from by omega]
        | some m =>
          have hlt : ((c :: rest).drop m.len).length < k := by
            have hb := matchTagAt_bound hm
            simp only [List.length_drop, List.length_cons] at hlen ⊢
            omega
          by_cases hcn : m.isClose = true ∧ String.mk (m.nameChars.map Char.toLower) = s
          · rw [skipEnd_hit s hm hcn.1 hcn.2, tokenizeFrom_skip_exit hm pos hcn.1 hcn.2]
            constructor
            · intro hcontra
              cases hcontra
            · intro n hn
              injection hn with hn
              rw [hn]
          · rw [skipEnd_miss s hm hcn, tokenizeFrom_skip_stay hm pos hcn]
            constructor
            · intro hne
              have hnone : skipEnd s ((c :: rest).drop m.len) = none := by
                cases hS : skipEnd s ((c :: rest).drop m.len) with
                | none => rfl
                | some o => rw [hS] at hne; cases hne
              exact (ih _ hlt (pos + m.len)).1 hnone
            · intro n hn
              cases hS : skipEnd s ((c :: rest).drop m.len) with
              | none => rw [hS] at hn; cases hn
              | some k' =>
                rw [hS] at hn
                injection hn with hn
                have hn2 : k' + m.len = n := hn
                rw [(ih _ hlt (pos + m.len)).2 k' hS, ← hn2, List.drop_drop,
                  show pos + (k' + m.len) = pos + m.len + k' from by omega,
                  show m.len + k' = k' + m.len from by omega]
  intro cs pos
  exact main (cs.length + 1) cs (Nat.lt_succ_self _) pos

/-- C10 (implicit): a self-closing raw-text tag such as `<script/>` still
enters skip mode — the tag itself emits no token and the tokenizer switches
to the skip state named after it; from the skip state, tokenization is
suppressed up to and including the next matching close tag (`skipEnd`), and
yields nothing at all when no such close tag exists; consequently everything
after a childless `<script/>` with no later `</script>` is invisible, e.g.
`<p><script/><div></div>` analyzes with no violation despite the `div`
inside `p`. -/
theorem claim_C10 :
    (∀ (S : String) (t : List Char) (pos : Nat),
        isLowerTagName S = true → SKIP_CONTENT_TAGS.contains S = true →
        tokenizeFrom ('<' :: (S.data ++ '/' :: '>' :: t)) pos none =
          tokenizeFrom t (pos + (S.length + 3)) (some S)) ∧
    (∀ (s : String) (cs : List Char) (pos : Nat),
        (skipEnd s cs = none → tokenizeFrom cs pos (some s) = []) ∧
        ∀ n, skipEnd s cs = some n →
          tokenizeFrom cs pos (some s) = tokenizeFrom (cs.drop n) (pos + n) none) ∧
    tokenizeTags "<p><script/><div></div>" = [⟨"open", "p", 0, 3⟩] ∧
    analyzeDocument "<p><script/><div></div>" "html" = [] := by
    
  refine ⟨?_, ?_, by decide, by decide⟩
  · intro S t pos hS hskip
    obtain ⟨sc, scs, hSd, hstart, hslash, hall, hlow⟩ := isLowerTagName_spec hS
    have hmk : String.mk (sc :: scs) = S := by rw [← hSd]
    have hlenS : S.length = (sc :: scs).length := by rw [← hmk]; rfl
    rw [hSd, List.cons_append]
    rw [tokenizeFrom_enter_skip (matchTagAt_selfclose_lemma hstart hall) pos
      (by show (!(false : Bool) && SKIP_CONTENT_TAGS.contains
            (String.mk ((sc :: scs).map Char.toLower))) = true
          rw [hlow, hmk]
          simpa using hskip)]
    simp only [hlow, hmk, drop_selfclose_tag2]
    rw [hlenS]
  · intro s cs pos
    exact tokenizeFrom_skip_resume s cs pos

theorem claim_C10_witness :
    tokenizeFrom ('<' :: ("script".data ++ '/' :: '>' :: "<div></div>".data)) 0 none =
      tokenizeFrom "<div></div>".data (0 + ("script".length + 3)) (some "script") ∧
    tokenizeFrom "<div></div>".data 9 (some "script") = [] :=
  ⟨claim_C10.1 "script" "<div></div>".data 0 (by decide) (by decide),
   (claim_C10.2.1 "script" "<div></div>".data 9).1 (by decide)⟩

/-! Structural facts about the template-region matcher. -/

theorem startsWithCI_decomp : ∀ (ps cs : List Char), startsWithCI ps cs = true →
    ∃ pre rest, cs = pre ++ rest ∧ pre.length = ps.length ∧
      pre.map Char.toLower = ps := by
  intro ps
  induction ps with
  | nil => intro cs h; exact ⟨[], cs, rfl, rfl, rfl⟩
  | cons p ps ih =>
    intro cs h
    match cs with
    | [] => cases h
    | c :: cs2 =>
      rw [startsWithCI] at h
      simp only [Bool.and_eq_true, beq_iff_eq] at h
      obtain ⟨hc, hrest⟩ := h
      obtain ⟨pre, rest, hcs, hlen, hmap⟩ := ih cs2 hrest
      exact ⟨c :: pre, rest, by rw [hcs]; rfl, by simp [hlen], by simp [hc, hmap]⟩

theorem firstIdxOf_decomp {c : Char} : ∀ {l : List Char} {d : Nat},
    firstIdxOf c l = some d →
    ∃ a b, l = a ++ c :: b ∧ a.length = d ∧ ∀ x ∈ a, x ≠ c := by
  intro l
  induction l with
  | nil => intro d h; cases h
  | cons x rest ih =>
    intro d h
    rw [firstIdxOf] at h
    by_cases hx : x = c
    · rw [if_pos hx] at h
      injection h with h
      subst hx
      exact ⟨[], rest, rfl, h, by simp⟩
    · rw [if_neg hx] at h
      cases hf : firstIdxOf c rest with
      | none => rw [hf] at h; cases h
      | some d2 =>
        rw [hf] at h
        injection h with h
        obtain ⟨a, b, hl, hlen, hall⟩ := ih hf
        refine ⟨x :: a, b, by rw [hl]; rfl, ?_, ?_⟩
        · simp only [List.length_cons, hlen]
          exact h
        · intro y hy
          rcases List.mem_cons.mp hy with rfl | hmem
          · exact hx
          · exact hall y hmem

theorem firstIdxOf_prefix_all {c : Char} : ∀ (a t : List Char),
    (∀ x ∈ a, x ≠ c) → firstIdxOf c (a ++ c :: t) = some a.length := by
  intro a t
  induction a with
  | nil => intro h2; rw [List.nil_append, firstIdxOf, if_pos rfl]; rfl
  | cons x xs ih =>
    intro h2
    rw [List.cons_append, firstIdxOf,
      if_neg (h2 x (List.mem_cons_self x xs)),
      ih (fun y hy => h2 y (List.mem_cons_of_mem x hy))]
    rfl

theorem findCloseTemplate_startsWith : ∀ (l : List Char) {k : Nat},
    findCloseTemplate l = some k →
    startsWithCI "</template>".data (l.drop k) = true := by
  intro l
  induction l with
  | nil => intro k h; cases h
  | cons c rest ih =>
    intro k h
    rw [findCloseTemplate] at h
    by_cases hs : startsWithCI "</template>".data (c :: rest) = true
    · rw [if_pos hs] at h
      injection h with h
      rw [← h, List.drop_zero]
      exact hs
    · rw [if_neg hs] at h
      cases hf : findCloseTemplate rest with
      | none => rw [hf] at h; cases h
      | some k2 =>
        rw [hf] at h
        injection h with h
        rw [← h, List.drop_succ_cons]
        exact ih hf

theorem take_append_plus (l₁ l₂ : List Char) (k : Nat) :
    (l₁ ++ l₂).take (l₁.length + k) = l₁ ++ l₂.take k := by
  induction l₁ with
  | nil => simp
  | cons x xs ih =>
    rw [List.cons_append, List.length_cons,
      show xs.length + 1 + k = (xs.length + k) + 1 from by omega,
      List.take_succ_cons, ih, List.cons_append]

theorem getElem?_append_cons (l : List Char) (c : Char) (t : List Char) :
    (l ++ c :: t)[l.length]? = some c := by
  induction l with
  | nil => simp
  | cons x xs ih => simpa using ih

theorem findTemplateMatch_spec : ∀ (cs : List Char) (i : Nat) (m : TMatch),
    findTemplateMatch cs i = some m →
    i ≤ m.idx ∧
      matchTemplateAt (cs.drop (m.idx - i)) =
        some (m.openLen, m.innerLen, m.fullLen) := by
  intro cs
  induction cs with
  | nil => intro i m h; cases h
  | cons c rest ih =>
    intro i m h
    rw [findTemplateMatch] at h
    cases hm : matchTemplateAt (c :: rest) with
    | some r =>
      obtain ⟨oL, iL, fL⟩ := r
      simp only [hm] at h
      injection h with h
      subst h
      refine ⟨Nat.le_refl i, ?_⟩
      show matchTemplateAt ((c :: rest).drop (i - i)) = some (oL, iL, fL)
      rw [Nat.sub_self, List.drop_zero]
      exact hm
    | none =>
      simp only [hm] at h
      obtain ⟨h1, h2⟩ := ih (i + 1) m h
      refine ⟨by omega, ?_⟩
      have hd : (c :: rest).drop (m.idx - i) = rest.drop (m.idx - (i + 1)) := by
        rw [show m.idx - i = (m.idx - (i + 1)) + 1 from by omega, List.drop_succ_cons]
      rw [hd]
      exact h2

theorem matchTemplateAt_spec {u : List Char} {oL iL fL : Nat}
    (h : matchTemplateAt u = some (oL, iL, fL)) :
    ∃ d, startsWithCI "<template".data u = true ∧
      firstIdxOf '>' (u.drop 9) = some d ∧
      findCloseTemplate (u.drop (9 + d + 1)) = some iL ∧
      oL = 9 + d + 1 ∧ fL = 9 + d + 1 + iL + 11 := by
  unfold matchTemplateAt at h
  split at h
  · rename_i hstart
    split at h
    · rename_i d hd
      split at h
      · rename_i k hk
        simp only [Option.some.injEq, Prod.mk.injEq] at h
        obtain ⟨h1, h2, h3⟩ := h
        exact ⟨d, hstart, hd, h2 ▸ hk, h1.symm, by omega⟩
      · cases h
    · cases h
  · cases h

/-- C7: for the template-wrapped dialects (vue / svelte), when the template
regex matches, `extractMarkupRegions` returns exactly one region — the lazy
inner capture — whose base offset `m.idx + m.openLen` is the index of the
character immediately after the opening tag\x27s `>` (that character is at
base − 1, and the text right after the inner capture starts with
`</template>` case-insensitively), and every violation reported by
`analyzeDocument` has `absoluteOffset` equal to its local offset plus that
base offset. -/
theorem claim_C7 (content : String) (languageId : String) (m : TMatch)
    (hlang : languageId = "vue" ∨ languageId = "svelte")
    (hm : findTemplateMatch content.data 0 = some m) :
    extractMarkupRegions content languageId =
      [⟨String.mk (((content.data.drop m.idx).drop m.openLen).take m.innerLen),
        m.idx + m.openLen⟩] ∧
    content.data[m.idx + m.openLen - 1]? = some '>' ∧
    startsWithCI "</template>".data
      (content.data.drop (m.idx + m.openLen + m.innerLen)) = true ∧
    ∀ v ∈ analyzeDocument content languageId,
      v.absoluteOffset = v.offset + (m.idx + m.openLen) := by
  obtain ⟨-, hmatch⟩ := findTemplateMatch_spec content.data 0 m hm
  rw [Nat.sub_zero] at hmatch
  obtain ⟨d, hstart, hfi, hfc, hoL, hfL⟩ := matchTemplateAt_spec hmatch
  obtain ⟨pre, rest, hu, hlen, hmap⟩ := startsWithCI_decomp _ _ hstart
  have hlen9 : pre.length = 9 := by rw [hlen]; rfl
  have hdrop9 : (content.data.drop m.idx).drop 9 = rest := by
    rw [hu, List.drop_left' hlen9]
  rw [hdrop9] at hfi
  obtain ⟨a, b, hrest, hlena, halla⟩ := firstIdxOf_decomp hfi
  have hpre : ∀ x ∈ pre, x ≠ '>' := by
    intro x hx he
    subst he
    have hmem : Char.toLower '>' ∈ pre.map Char.toLower :=
      List.mem_map_of_mem Char.toLower hx
    rw [hmap] at hmem
    exact absurd hmem (by decide)
  have hnogt : ∀ x ∈ pre ++ a, x ≠ '>' := by
    intro x hx
    rcases List.mem_append.mp hx with h1 | h1
    · exact hpre x h1
    · exact halla x h1
  have hu2 : content.data.drop m.idx = (pre ++ a) ++ '>' :: b := by
    rw [hu, hrest, List.append_assoc]
  have hpa : (pre ++ a).length = 9 + d := by
    rw [List.length_append, hlen9, hlena]
  have htake : (content.data.drop m.idx).take m.fullLen =
      (pre ++ a) ++ '>' :: (b.take (m.innerLen + 11)) := by
    rw [hu2, hfL,
      show 9 + d + 1 + m.innerLen + 11 = (pre ++ a).length + (m.innerLen + 11 + 1)
        from by rw [hpa]; omega,
      take_append_plus, List.take_succ_cons]
  have hfirst : firstIdxOf '>' ((content.data.drop m.idx).take m.fullLen) =
      some (m.openLen - 1) := by
    rw [htake, firstIdxOf_prefix_all _ _ hnogt, hpa]
    rw [show 9 + d = m.openLen - 1 from by omega]
  have hne1 : ¬ languageId = "html" := by
    rcases hlang with h | h <;> subst h <;> decide
  have hne2 : ¬ (languageId = "javascriptreact" ∨ languageId = "typescriptreact") := by
    rcases hlang with h | h <;> subst h <;> decide
  have ha : extractMarkupRegions content languageId =
      [⟨String.mk (((content.data.drop m.idx).drop m.openLen).take m.innerLen),
        m.idx + m.openLen⟩] := by
    unfold extractMarkupRegions
    rw [if_neg hne1, if_neg hne2, if_pos hlang]
    simp only [extractTemplateRegion, hm, hfirst, Option.getD_some]
    rw [show m.idx + (m.openLen - 1) + 1 = m.idx + m.openLen from by omega]
  have hgt : content.data[m.idx + m.openLen - 1]? = some '>' := by
    have h1 : (content.data.drop m.idx)[(pre ++ a).length]? = some '>' := by
      rw [hu2]
      exact getElem?_append_cons _ _ _
    rw [List.getElem?_drop] at h1
    rw [show m.idx + m.openLen - 1 = m.idx + (pre ++ a).length
      from by rw [hpa]; omega]
    exact h1
  have hclose : startsWithCI "</template>".data
      (content.data.drop (m.idx + m.openLen + m.innerLen)) = true := by
    have h1 := findCloseTemplate_startsWith _ hfc
    have h2 : ((content.data.drop m.idx).drop (9 + d + 1)).drop m.innerLen =
        content.data.drop (m.idx + m.openLen + m.innerLen) := by
      rw [List.drop_drop, List.drop_drop]
      congr 1
      omega
    rw [h2] at h1
    exact h1
  refine ⟨ha, hgt, hclose, ?_⟩
  intro v hv
  unfold analyzeDocument at hv
  rw [ha] at hv
  simp only [List.map_cons, List.map_nil, List.flatten_cons, List.flatten_nil,
    List.append_nil] at hv
  unfold analyzeRegion at hv
  obtain ⟨err, hmem, hveq⟩ := List.mem_map.mp hv
  rw [← hveq]

theorem claim_C7_witness :
    extractMarkupRegions "<template><p></p></template>" "vue" =
      [⟨String.mk ((("<template><p></p></template>".data.drop 0).drop 10).take 7),
        0 + 10⟩] ∧
    "<template><p></p></template>".data[0 + 10 - 1]? = some '>' := by
  have h := claim_C7 "<template><p></p></template>" "vue" ⟨0, 10, 7, 28⟩
    (Or.inl rfl) (by decide)
  exact ⟨h.1, h.2.1⟩

end HtmlNesting
